import Mathlib

/-!
# HenocUniverse: pairwise contact sweep, corruption check and defaults stack

A shallow embedding of `src/HenocUniverse/henocUniverse.h`.

* Pointers and handles (`dBodyID`, `Callback`, `Geometry &`) are natural numbers,
  `0` being the null pointer.
* `Mask` is `unsigned int`; only `&` is applied to it, so it is a natural number.
* `int` values are integers; the one addition the header performs on an `int`
  (`contactCount += contactList.Count()`) is reduced to the 32-bit two's
  complement range by `wrapInt32`.
* The candidate container is the list of the values `(*o)->GetFlatlandObject()`
  returns, in iteration order: `none` for a null pointer.
* An `Object` value is the part of an object that a sweep cannot change: its
  class, its geometry handle and its body. Its `ObjectProperties` and the
  placement of its geometry live in a store `S`, which the callbacks fired by
  `ContactList::Finalize` may rewrite: they receive the `ContactList`, whose
  `Self()` and `Other()` give writable `Object *`.
* Functions that the header only declares (`Intersection::Test`,
  `Intersection::Find`, `ContactList::Reset`, `ContactList::Finalize`,
  `ContactList::CreateJoints`, `dJointGroupEmpty`, `dBodyGetLinearVel`,
  `dBodyGetAngularVel`, `is_nan`) are parameters of the model.
-/

namespace HenocUniverse

/-! ## Data model -/

/-- The type `unsigned int`, used for bit masks. -/
abbrev Mask := Nat

/-- The handle `dBodyID`; `0` is the null body. -/
abbrev Body := Nat

/-- The function pointer `void (*)(ContactList &)`; `0` is the null pointer. -/
abbrev Callback := Nat

/-- A reference to a `Geometry` instance, as handed to the intersection service. -/
abbrev Geometry := Nat

/-- The bit pattern of a C++ `float`; the header only copies such values. -/
abbrev FloatBits := Nat

/-- Physical properties (`struct ObjectProperties`). -/
structure ObjectProperties where
  density : FloatBits
  friction : FloatBits
  bounceFactor : FloatBits
  bounceVelocity : FloatBits
  collisionMask : Mask
  frictionMask : Mask
  callback : Callback
  deriving DecidableEq, Repr

/-- The two concrete subclasses of `Object`: `Dynamic<G>` owns a geometry and a
body, `Static<G>` owns a geometry only. The member `properties` is read
through `Services.Property`, in the store. -/
inductive Object where
  | Dynamic (geometry : Geometry) (body : Body)
  | Static (geometry : Geometry)
  deriving DecidableEq, Repr

/-- The method `IsDynamic`: `Dynamic::IsDynamic` returns `true`, `Static::IsDynamic` returns `false`. -/
def Object.IsDynamic : Object → Bool
  | .Dynamic _ _ => true
  | .Static _ => false

/-- The method `GetBody`: `Dynamic::GetBody` returns the body, `Static::GetBody` returns `0`. -/
def Object.GetBody : Object → Body
  | .Dynamic _ body => body
  | .Static _ => 0

/-- The method `GetGeometry` of either subclass. -/
def Object.GetGeometry : Object → Geometry
  | .Dynamic geometry _ => geometry
  | .Static geometry => geometry

/-- One entry of the candidate container, resolved by `GetFlatlandObject`. -/
abbrev Entry := Option Object

/-! ## World::GenerateContacts -/

/-- The calls a sweep makes, tagged with the container positions of the pair
they are made for. `Count` stands for the statement
`contactCount += contactList.Count()`. -/
inductive Call where
  | JointGroupEmpty
  | Test (i j : Nat)
  | Reset (i j : Nat)
  | Find (i j : Nat)
  | Finalize (i j : Nat)
  | CreateJoints (i j : Nat)
  | Count (i j : Nat)
  deriving DecidableEq, Repr

/-- The collaborators of the sweep that the header declares without defining.
`S` is the store: the properties of the objects, the placement of their
geometries and whatever else a callback can reach. `Property` is
`object->Property()` read in a store; the intersection service reads the
store; `Finalize` fires the callbacks and returns the store they leave. `CL`
is the state of the contact list, `JG` that of the joint group. -/
structure Services (CL JG S : Type) where
  Property : S → Object → ObjectProperties
  Test : S → Geometry → Geometry → Bool
  Find : S → Geometry → Geometry → CL → CL
  Reset : CL → Object → Object → CL
  Finalize : CL → S → CL × S
  Count : CL → Int
  CreateJoints : CL → JG → JG
  dJointGroupEmpty : JG → JG

/-- The private state of `World` that the sweep reads and writes. -/
structure World (CL JG : Type) where
  contactCount : Int
  contactGroup : JG
  contactList : CL

/-- The method `World::ContactCount`. -/
def World.ContactCount {CL JG : Type} (w : World CL JG) : Int := w.contactCount

/-- A sweep in progress: the world, the store, the calls made so far (oldest
first) and, oldest first, the contact lists that were handed to `CreateJoints`
and counted, each with its pair. -/
structure Sweep (CL JG S : Type) where
  world : World CL JG
  store : S
  calls : List Call
  joints : List (Nat × Nat × CL)

/-- Reduction of an integer to the range of a 32-bit `int`. -/
def wrapInt32 (x : Int) : Int := (x + 2147483648) % 4294967296 - 2147483648

/-- Lines 193 to 204 of `GenerateContacts`: the intersection work for a pair
that passed the tests of lines 187 to 191. The masks of line 200 are read in
the store that `Finalize` left. -/
def intersectPair {CL JG S : Type} (env : Services CL JG S) (i j : Nat)
    (object1 object2 : Object) (s : Sweep CL JG S) : Sweep CL JG S :=
  let g1 := object1.GetGeometry
  let g2 := object2.GetGeometry
  let s := { s with calls := s.calls ++ [Call.Test i j] }
  if env.Test s.store g1 g2 then
    let s := { s with
      world := { s.world with contactList := env.Reset s.world.contactList object1 object2 }
      calls := s.calls ++ [Call.Reset i j] }
    let s := { s with
      world := { s.world with contactList := env.Find s.store g1 g2 s.world.contactList }
      calls := s.calls ++ [Call.Find i j] }
    let s := { s with
      world := { s.world with contactList := (env.Finalize s.world.contactList s.store).1 }
      store := (env.Finalize s.world.contactList s.store).2
      calls := s.calls ++ [Call.Finalize i j] }
    if ((env.Property s.store object1).collisionMask &&&
        (env.Property s.store object2).collisionMask) != 0 then
      let s := { s with
        world := { s.world with
          contactGroup := env.CreateJoints s.world.contactList s.world.contactGroup }
        calls := s.calls ++ [Call.CreateJoints i j]
        joints := s.joints ++ [(i, j, s.world.contactList)] }
      let n := env.Count s.world.contactList
      { s with
        world := { s.world with contactCount := wrapInt32 (s.world.contactCount + n) }
        calls := s.calls ++ [Call.Count i j] }
    else s
  else s

/-- The body of the inner loop of `GenerateContacts` for two non-null objects
(lines 187 to 204); returning `s` unchanged is the `continue`. -/
def visitPair {CL JG S : Type} (env : Services CL JG S) (i j : Nat)
    (object1 object2 : Object) (s : Sweep CL JG S) : Sweep CL JG S :=
  if !object1.IsDynamic && !object2.IsDynamic then s
  else if ((env.Property s.store object1).collisionMask &&&
      (env.Property s.store object2).collisionMask) == 0 then
    if (env.Property s.store object1).callback == 0 &&
        (env.Property s.store object2).callback == 0 then s
    else intersectPair env i j object1 object2 s
  else intersectPair env i j object1 object2 s

/-- The inner loop: `o2` runs from the entry after `o1` to the end; `j` is the
position of the head of the remaining entries. -/
def innerLoop {CL JG S : Type} (env : Services CL JG S) (i : Nat) (object1 : Object) :
    Nat → List Entry → Sweep CL JG S → Sweep CL JG S
  | _, [], s => s
  | j, none :: rest, s => innerLoop env i object1 (j + 1) rest s
  | j, some object2 :: rest, s =>
      innerLoop env i object1 (j + 1) rest (visitPair env i j object1 object2 s)

/-- The outer loop: `i` is the position of the head of the remaining entries. -/
def outerLoop {CL JG S : Type} (env : Services CL JG S) :
    Nat → List Entry → Sweep CL JG S → Sweep CL JG S
  | _, [], s => s
  | i, none :: rest, s => outerLoop env (i + 1) rest s
  | i, some object1 :: rest, s =>
      outerLoop env (i + 1) rest (innerLoop env i object1 (i + 1) rest s)

/-- The state after lines 175 and 176: joint group emptied, counter zero. -/
def initial {CL JG S : Type} (env : Services CL JG S) (w : World CL JG) (st : S) :
    Sweep CL JG S :=
  { world := { w with contactGroup := env.dJointGroupEmpty w.contactGroup, contactCount := 0 }
    store := st
    calls := [Call.JointGroupEmpty]
    joints := [] }

/-- The method `World::GenerateContacts`, run in the store `st`: empty the joint
group, zero the counter, then visit the pairs. -/
def GenerateContacts {CL JG S : Type} (env : Services CL JG S) (w : World CL JG) (st : S)
    (space : List Entry) : Sweep CL JG S :=
  outerLoop env 0 space (initial env w st)

/-! ## World::IsCorrupt -/

/-- The value classes of a `dReal`: a finite number, an infinity or a NaN. -/
inductive dReal where
  | finite (value : Int)
  | infinite (negative : Bool)
  | nan
  deriving DecidableEq, Repr

/-- A value that is an infinity or a NaN. -/
def dReal.nonFinite : dReal → Bool
  | .finite _ => false
  | .infinite _ => true
  | .nan => true

/-- The queries `IsCorrupt` sends to the dynamics engine, and the helper
`is_nan`; none is defined in the header. A velocity is the array the returned
pointer refers to: position to value. -/
structure Engine where
  dBodyGetLinearVel : Body → Nat → dReal
  dBodyGetAngularVel : Body → Nat → dReal
  is_nan : dReal → Bool

/-- The loop of `World::IsCorrupt` over the remaining entries. The list
argument collects, oldest first, the bodies whose velocities were queried. -/
def IsCorruptFrom (eng : Engine) : List Entry → List Body → Bool × List Body
  | [], queried => (false, queried)
  | none :: rest, queried => IsCorruptFrom eng rest queried
  | some object :: rest, queried =>
      let body := object.GetBody
      if body == 0 then IsCorruptFrom eng rest queried
      else
        let lvel := eng.dBodyGetLinearVel body
        let avel := eng.dBodyGetAngularVel body
        let queried := queried ++ [body]
        if eng.is_nan (lvel 0) then (true, queried)
        else if eng.is_nan (lvel 1) then (true, queried)
        else if eng.is_nan (avel 0) then (true, queried)
        else if eng.is_nan (avel 1) then (true, queried)
        else IsCorruptFrom eng rest queried

/-- The method `World::IsCorrupt`. -/
def IsCorrupt (eng : Engine) (space : List Entry) : Bool :=
  (IsCorruptFrom eng space []).1

/-- The bodies whose velocities `World::IsCorrupt` asked the engine for. -/
def IsCorruptQueries (eng : Engine) (space : List Entry) : List Body :=
  (IsCorruptFrom eng space []).2

/-- The number of components of a velocity vector of the dynamics engine. The
engine is three-dimensional: the constructor of `Dynamic` builds the initial
rotation about the axis `(0, 0, 1)` (line 237). -/
def velocityComponents : Nat := 3

/-- Some component with a position below `n` of the linear or the angular
velocity of `body` satisfies `test`. -/
def velocityFlagged (eng : Engine) (test : dReal → Bool) (n : Nat) (body : Body) : Bool :=
  (List.range n).any fun k =>
    test (eng.dBodyGetLinearVel body k) || test (eng.dBodyGetAngularVel body k)

/-- An entry that resolves to a Dynamic object with a non-null body, some
component below `n` of whose velocities satisfies `test`. -/
def corruptEntry (eng : Engine) (test : dReal → Bool) (n : Nat) : Entry → Bool
  | none => false
  | some object =>
      object.IsDynamic && object.GetBody != 0 && velocityFlagged eng test n object.GetBody

/-- An entry that resolves to no object or to a Static object. -/
def Entry.noBody : Entry → Bool
  | none => true
  | some object => !object.IsDynamic

/-! ## The stack of default properties -/

/-- The way a call can fail to return a state. -/
inductive Fault where
  | undefinedBehaviour
  deriving DecidableEq, Repr

/-- The static members of `Object`: the current defaults and the stack of
saved defaults, top first. -/
structure Defaults where
  defaults : ObjectProperties
  defaultStack : List ObjectProperties
  deriving DecidableEq, Repr

/-- The method `Object::Default`. -/
def Defaults.Default (s : Defaults) : ObjectProperties := s.defaults

/-- The method `Object::PushProperties`: `defaultStack.push(defaults)`. -/
def PushProperties (s : Defaults) : Defaults :=
  { s with defaultStack := s.defaults :: s.defaultStack }

/-- The method `Object::PopProperties`: `defaults = defaultStack.top(); defaultStack.pop();`
with no test of emptiness before. The C++ standard gives `top()` on an empty
`std::stack` no behaviour; the model gives that case no state. -/
def PopProperties (s : Defaults) : Except Fault Defaults :=
  match s.defaultStack with
  | [] => .error .undefinedBehaviour
  | top :: rest => .ok { defaults := top, defaultStack := rest }

/-- A step of a client of the defaults: a push, a pop, or a write through the
reference `Object::Default()` returns. -/
inductive DefaultsOp where
  | Push
  | Pop
  | Mutate (f : ObjectProperties → ObjectProperties)

/-- Run one step. -/
def DefaultsOp.exec : DefaultsOp → Defaults → Except Fault Defaults
  | .Push, s => .ok (PushProperties s)
  | .Pop, s => PopProperties s
  | .Mutate f, s => .ok { s with defaults := f s.defaults }

/-- Run a sequence of steps, stopping at the first that fails. -/
def runOps : List DefaultsOp → Defaults → Except Fault Defaults
  | [], s => .ok s
  | op :: rest, s =>
      match op.exec s with
      | .ok s1 => runOps rest s1
      | .error e => .error e

/-- The pushes and pops of a sequence are well nested, `depth` pushes being
open at its start: no pop without an open push, and none left open. -/
def balanced : Nat → List DefaultsOp → Bool
  | depth, [] => depth == 0
  | depth, .Push :: rest => balanced (depth + 1) rest
  | depth, .Pop :: rest => depth != 0 && balanced (depth - 1) rest
  | depth, .Mutate _ :: rest => balanced depth rest

/-- As `balanced`, and every write to the defaults is made while a push is open. -/
def wellScoped : Nat → List DefaultsOp → Bool
  | depth, [] => depth == 0
  | depth, .Push :: rest => wellScoped (depth + 1) rest
  | depth, .Pop :: rest => depth != 0 && wellScoped (depth - 1) rest
  | depth, .Mutate _ :: rest => depth != 0 && wellScoped depth rest

/-- The last element of a non-empty list given by head and tail. -/
def bottomOf {α : Type} : α → List α → α
  | a, [] => a
  | _, b :: rest => bottomOf b rest

/-! ## Vocabulary of the statements about the sweep -/

/-- The collision masks of two objects, read in a store, have a bit in common. -/
def masksShare {CL JG S : Type} (env : Services CL JG S) (st : S) (o1 o2 : Object) : Bool :=
  ((env.Property st o1).collisionMask &&& (env.Property st o2).collisionMask) != 0

/-- At least one of two objects has, in a store, a registered callback. -/
def hasCallback {CL JG S : Type} (env : Services CL JG S) (st : S) (o1 o2 : Object) : Bool :=
  (env.Property st o1).callback != 0 || (env.Property st o2).callback != 0

/-- A pair of objects that, in a store, qualifies for an intersection test:
one of them is Dynamic, and the masks share a bit or one of them has a
callback. -/
def tested {CL JG S : Type} (env : Services CL JG S) (st : S) (o1 o2 : Object) : Bool :=
  (o1.IsDynamic || o2.IsDynamic) && (masksShare env st o1 o2 || hasCallback env st o1 o2)

/-- The contact list and the store after `Reset` for the pair, `Find` and
`Finalize`, started in the state `s`. -/
def listAfter {CL JG S : Type} (env : Services CL JG S) (s : Sweep CL JG S) (o1 o2 : Object) :
    CL × S :=
  env.Finalize
    (env.Find s.store o1.GetGeometry o2.GetGeometry (env.Reset s.world.contactList o1 o2))
    s.store

/-- The calls expected for the pair of objects at positions `i` and `j`, met
in the state `s`. -/
def pairCalls {CL JG S : Type} (env : Services CL JG S) (i j : Nat) (o1 o2 : Object)
    (s : Sweep CL JG S) : List Call :=
  if tested env s.store o1 o2 then
    Call.Test i j ::
      (if env.Test s.store o1.GetGeometry o2.GetGeometry then
        [Call.Reset i j, Call.Find i j, Call.Finalize i j] ++
          (if masksShare env (listAfter env s o1 o2).2 o1 o2 then
            [Call.CreateJoints i j, Call.Count i j]
          else [])
      else [])
  else []

/-- The contact list expected to be handed to `CreateJoints` and counted for
the pair of objects at positions `i` and `j`, met in the state `s`, if any. -/
def pairJoints {CL JG S : Type} (env : Services CL JG S) (i j : Nat) (o1 o2 : Object)
    (s : Sweep CL JG S) : List (Nat × Nat × CL) :=
  if tested env s.store o1 o2 && env.Test s.store o1.GetGeometry o2.GetGeometry &&
      masksShare env (listAfter env s o1 o2).2 o1 o2 then
    [(i, j, (listAfter env s o1 o2).1)]
  else []

/-- What the loops do at one pair of positions: visit the pair when both
entries resolve to an object. -/
def pairStep {CL JG S : Type} (env : Services CL JG S) (space : List Entry)
    (s : Sweep CL JG S) (p : Nat × Nat) : Sweep CL JG S :=
  match space[p.1]?, space[p.2]? with
  | some (some o1), some (some o2) => visitPair env p.1 p.2 o1 o2 s
  | _, _ => s

/-- The calls expected at one pair of positions, met in the state `s`. -/
def stepCalls {CL JG S : Type} (env : Services CL JG S) (space : List Entry)
    (s : Sweep CL JG S) (p : Nat × Nat) : List Call :=
  match space[p.1]?, space[p.2]? with
  | some (some o1), some (some o2) => pairCalls env p.1 p.2 o1 o2 s
  | _, _ => []

/-- The counted contact list expected at one pair of positions, met in the
state `s`, if any. -/
def stepJoints {CL JG S : Type} (env : Services CL JG S) (space : List Entry)
    (s : Sweep CL JG S) (p : Nat × Nat) : List (Nat × Nat × CL) :=
  match space[p.1]?, space[p.2]? with
  | some (some o1), some (some o2) => pairJoints env p.1 p.2 o1 o2 s
  | _, _ => []

/-- The position pairs `(i, j)`, `i < j < n`, in lexicographic order. -/
def indexPairs (n : Nat) : List (Nat × Nat) :=
  (List.range' 0 n).flatMap fun i =>
    (List.range' (i + 1) (n - (i + 1))).map fun j => (i, j)

/-- The position pairs that come before `(i, j)` in the iteration. -/
def pairsBefore (n i j : Nat) : List (Nat × Nat) :=
  (indexPairs n).takeWhile fun p => p != (i, j)

/-- The position pairs that come after `(i, j)` in the iteration. -/
def pairsAfter (n i j : Nat) : List (Nat × Nat) :=
  ((indexPairs n).dropWhile fun p => p != (i, j)).tail

/-- The state of the sweep when the pair of positions `(i, j)` is met: the
initial state after the pairs that come before. -/
def stateAt {CL JG S : Type} (env : Services CL JG S) (w : World CL JG) (st : S)
    (space : List Entry) (i j : Nat) : Sweep CL JG S :=
  (pairsBefore space.length i j).foldl (pairStep env space) (initial env w st)

/-- Positions `i < j` hold objects that qualify, in the store `st`, for an
intersection test. -/
def shouldTest {CL JG S : Type} (env : Services CL JG S) (st : S) (space : List Entry)
    (i j : Nat) : Bool :=
  decide (i < j) &&
    match space[i]?, space[j]? with
    | some (some o1), some (some o2) => tested env st o1 o2
    | _, _ => false

/-- Positions `i < j` hold objects, one of them Dynamic, whose masks share a
bit in the store `st` and which the intersection test reports as overlapping
in `st`. -/
def counted {CL JG S : Type} (env : Services CL JG S) (st : S) (space : List Entry)
    (i j : Nat) : Bool :=
  decide (i < j) &&
    match space[i]?, space[j]? with
    | some (some o1), some (some o2) =>
        (o1.IsDynamic || o2.IsDynamic) && masksShare env st o1 o2 &&
          env.Test st o1.GetGeometry o2.GetGeometry
    | _, _ => false

/-- First position of the pair a call is made for. -/
def Call.first : Call → Nat
  | .JointGroupEmpty => 0
  | .Test i _ | .Reset i _ | .Find i _ | .Finalize i _ | .CreateJoints i _ | .Count i _ => i

/-- Second position of the pair a call is made for. -/
def Call.second : Call → Nat
  | .JointGroupEmpty => 0
  | .Test _ j | .Reset _ j | .Find _ j | .Finalize _ j | .CreateJoints _ j | .Count _ j => j

/-- Rank of a call within the work done for one pair. -/
def Call.phase : Call → Nat
  | .JointGroupEmpty => 0
  | .Test _ _ => 1
  | .Reset _ _ => 2
  | .Find _ _ => 3
  | .Finalize _ _ => 4
  | .CreateJoints _ _ => 5
  | .Count _ _ => 6

/-- The pair of positions a call is made for. -/
def Call.pair (c : Call) : Nat × Nat := (c.first, c.second)

/-- Lexicographic order on position pairs: the iteration order of the loops. -/
def lexLt (p q : Nat × Nat) : Prop := p.1 < q.1 ∨ (p.1 = q.1 ∧ p.2 < q.2)

/-- Call `a` belongs to an earlier pair than `b`, or to the same pair and an
earlier phase. -/
def Call.before (a b : Call) : Prop :=
  lexLt (a.first, a.second) (b.first, b.second) ∨
    (a.first = b.first ∧ a.second = b.second ∧ a.phase < b.phase)

/-- The pair of a `Count` call. -/
def Call.countPair : Call → Option (Nat × Nat)
  | .Count i j => some (i, j)
  | _ => none

/-- The pair a counted contact list belongs to. -/
def jointPair {CL : Type} (r : Nat × Nat × CL) : Nat × Nat := (r.1, r.2.1)

/-- The counted contact list itself. -/
def jointList {CL : Type} (r : Nat × Nat × CL) : CL := r.2.2

/-- The sum of the values `Count()` returned for the counted contact lists. -/
def countSum {CL JG S : Type} (env : Services CL JG S) (joints : List (Nat × Nat × CL)) : Int :=
  (joints.map fun r => env.Count (jointList r)).sum

/-- The joint group after `CreateJoints` for the counted contact lists, in
order, from the group `g`. -/
def groupAfter {CL JG S : Type} (env : Services CL JG S) (g : JG)
    (joints : List (Nat × Nat × CL)) : JG :=
  joints.foldl (fun group r => env.CreateJoints (jointList r) group) g

/-! ## Sample inputs -/

/-- Properties with collision mask `mask` and callback `callback`. -/
def sampleProperties (mask : Mask) (callback : Callback) : ObjectProperties :=
  { density := 1, friction := 0, bounceFactor := 0, bounceVelocity := 0,
    collisionMask := mask, frictionMask := 0, callback := callback }

/-- Services over a store that gives the properties of the object of each
geometry, a contact list that is its number of contacts and a joint group that
is its number of joints: every two geometries overlap, `Find` adds two
contacts and the callbacks change nothing. -/
def sampleServices : Services Nat Nat (Geometry → ObjectProperties) :=
  { Property := fun st o => st o.GetGeometry
    Test := fun _ _ _ => true
    Find := fun _ _ _ cl => cl + 2
    Reset := fun _ _ _ => 0
    Finalize := fun cl st => (cl, st)
    Count := fun cl => (cl : Int)
    CreateJoints := fun cl group => group + cl
    dJointGroupEmpty := fun _ => 0 }

/-- As `sampleServices`, with callbacks that give every object the collision
mask `3`. -/
def rewritingServices : Services Nat Nat (Geometry → ObjectProperties) :=
  { sampleServices with Finalize := fun cl _ => (cl, fun _ => sampleProperties 3 7) }

/-- As `sampleServices`, with `Find` filling the contact list to its capacity
of `64` contacts. -/
def crowdServices : Services Nat Nat (Geometry → ObjectProperties) :=
  { sampleServices with Find := fun _ _ _ _ => 64 }

/-- A world left by an earlier sweep: five contacts counted, five joints. -/
def sampleWorld : World Nat Nat :=
  { contactCount := 5, contactGroup := 5, contactList := 3 }

/-- Two Static objects, an entry without object, and a Dynamic object. -/
def mixedSpace : List Entry :=
  [some (.Static 1), some (.Static 2), none, some (.Dynamic 3 9)]

/-- Every object has mask `1`; the object of geometry `2` has a callback. -/
def mixedStore : Geometry → ObjectProperties :=
  fun g => sampleProperties 1 (if g = 2 then 7 else 0)

/-- Static objects only. -/
def staticSpace : List Entry :=
  [some (.Static 1), some (.Static 2), some (.Static 3)]

/-- Every object has mask `1` and a callback. -/
def callbackStore : Geometry → ObjectProperties :=
  fun _ => sampleProperties 1 7

/-- Two Dynamic objects. -/
def dynamicSpace : List Entry :=
  [some (.Dynamic 1 8), some (.Dynamic 2 9)]

/-- The object of geometry `g` has mask `g`; no object has a callback. -/
def silentStore : Geometry → ObjectProperties :=
  fun g => sampleProperties g 0

/-- The object of geometry `g` has mask `g`; the object of geometry `2` has a
callback. -/
def sensorStore : Geometry → ObjectProperties :=
  fun g => sampleProperties g (if g = 2 then 7 else 0)

/-- A container of `n` Dynamic objects. -/
def crowdSpace (n : Nat) : List Entry :=
  (List.range n).map fun k => some (.Dynamic (k + 1) (k + 1))

/-- Every object has mask `1` and no callback. -/
def plainStore : Geometry → ObjectProperties :=
  fun _ => sampleProperties 1 0

/-- An engine whose body `9` spins with an angular velocity of components
`(0, 0, NaN)` and is otherwise at rest; `is_nan` flags every value that is not
finite. -/
def spinEngine : Engine :=
  { dBodyGetLinearVel := fun _ _ => .finite 0
    dBodyGetAngularVel := fun body k => if body = 9 ∧ k = 2 then .nan else .finite 0
    is_nan := dReal.nonFinite }

/-- An engine that reports NaN for every velocity component of every body. -/
def nanEngine : Engine :=
  { dBodyGetLinearVel := fun _ _ => .nan
    dBodyGetAngularVel := fun _ _ => .nan
    is_nan := dReal.nonFinite }

/-- A container with the one Dynamic object bound to body `9`. -/
def spinSpace : List Entry := [some (.Dynamic 3 9)]

/-- Defaults with an empty stack. -/
def sampleDefaults : Defaults :=
  { defaults := sampleProperties 1 0, defaultStack := [] }

/-- A write to the defaults: set the density. -/
def setDensity (d : FloatBits) : ObjectProperties → ObjectProperties :=
  fun p => { p with density := d }

/-- A matched push and pop, a write to the defaults, a matched push and pop. -/
def leakyOps : List DefaultsOp := [.Push, .Pop, .Mutate (setDensity 2), .Push, .Pop]

/-- Two nested scopes with writes at both depths. -/
def nestedOps : List DefaultsOp :=
  [.Push, .Mutate (setDensity 2), .Push, .Mutate (setDensity 3), .Pop,
    .Mutate (setDensity 4), .Pop]

/-! ## Lists -/

theorem drop_cons_inv {α : Type} : ∀ (l : List α) (k : Nat) (e : α) (rest : List α),
    l.drop k = e :: rest →
      l[k]? = some e ∧ l.drop (k + 1) = rest ∧ rest.length = l.length - (k + 1)
  | [], k, e, rest, h => by simp at h
  | a :: l, 0, e, rest, h => by
      simp at h
      obtain ⟨rfl, rfl⟩ := h
      simp
  | a :: l, k + 1, e, rest, h => by
      have ih := drop_cons_inv l k e rest (by simpa using h)
      simpa using ih

theorem foldl_flatMap_eq {α β γ : Type} (f : α → List β) (g : γ → β → γ) :
    ∀ (l : List α) (s : γ),
      (l.flatMap f).foldl g s = l.foldl (fun t a => (f a).foldl g t) s
  | [], s => rfl
  | a :: l, s => by
      rw [List.flatMap_cons, List.foldl_append, List.foldl_cons, foldl_flatMap_eq f g l]

theorem split_at_mem (x : Nat × Nat) :
    ∀ l : List (Nat × Nat), x ∈ l → l.Nodup →
      l = (l.takeWhile fun p => p != x) ++ x :: (l.dropWhile fun p => p != x).tail ∧
      x ∉ (l.takeWhile fun p => p != x) ∧ x ∉ (l.dropWhile fun p => p != x).tail
  | [], h, _ => by simp at h
  | a :: l, h, hnd => by
      by_cases hax : a = x
      · subst hax
        have hn : a ∉ l := (List.nodup_cons.1 hnd).1
        simp [hn]
      · have hx : x ∈ l := by
          rcases List.mem_cons.1 h with h1 | h1
          · exact absurd h1.symm hax
          · exact h1
        obtain ⟨h1, h2, h3⟩ := split_at_mem x l hx (List.nodup_cons.1 hnd).2
        have e1 : ((a :: l).takeWhile fun p => p != x) = a :: l.takeWhile fun p => p != x := by
          simp [List.takeWhile_cons, hax]
        have e2 : ((a :: l).dropWhile fun p => p != x) = l.dropWhile fun p => p != x := by
          simp [List.dropWhile_cons, hax]
        rw [e1, e2]
        refine ⟨?_, ?_, h3⟩
        · rw [List.cons_append, ← h1]
        · intro hm
          rcases List.mem_cons.1 hm with h4 | h4
          · exact hax h4.symm
          · exact h2 h4

theorem sublist_pair_of_mem {α : Type} (a b : α) (hab : a ≠ b) :
    ∀ l : List α, a ∈ l → b ∈ l → [a, b].Sublist l ∨ [b, a].Sublist l
  | [], ha, _ => by simp at ha
  | x :: l, ha, hb => by
      rcases List.mem_cons.1 ha with rfl | ha1
      · rcases List.mem_cons.1 hb with h | hb1
        · exact absurd h.symm hab
        · exact Or.inl (List.Sublist.cons₂ _ (List.singleton_sublist.2 hb1))
      · rcases List.mem_cons.1 hb with rfl | hb1
        · exact Or.inr (List.Sublist.cons₂ _ (List.singleton_sublist.2 ha1))
        · rcases sublist_pair_of_mem a b hab l ha1 hb1 with h | h
          · exact Or.inl (List.Sublist.cons _ h)
          · exact Or.inr (List.Sublist.cons _ h)

/-! ## Position pairs -/

theorem lexLt_irrefl (p : Nat × Nat) : ¬ lexLt p p := by
  unfold lexLt
  omega

theorem indexPairs_pairwise (n : Nat) : (indexPairs n).Pairwise lexLt := by
  unfold indexPairs
  rw [List.pairwise_flatMap]
  refine ⟨fun i _ => ?_, ?_⟩
  · rw [List.pairwise_map]
    refine List.Pairwise.imp ?_ (List.pairwise_lt_range' (i + 1) (n - (i + 1)) 1 (by decide))
    intro j k hjk
    exact Or.inr ⟨rfl, hjk⟩
  · refine List.Pairwise.imp ?_ (List.pairwise_lt_range' 0 n 1 (by decide))
    intro i k hik a ha b hb
    rw [List.mem_map] at ha hb
    obtain ⟨_, _, rfl⟩ := ha
    obtain ⟨_, _, rfl⟩ := hb
    exact Or.inl hik

theorem indexPairs_nodup (n : Nat) : (indexPairs n).Nodup := by
  refine List.Pairwise.imp ?_ (indexPairs_pairwise n)
  intro a b hab heq
  subst heq
  exact lexLt_irrefl a hab

theorem mem_indexPairs (n : Nat) (p : Nat × Nat) : p ∈ indexPairs n ↔ p.1 < p.2 ∧ p.2 < n := by
  obtain ⟨i, j⟩ := p
  unfold indexPairs
  simp only [List.mem_flatMap, List.mem_map, List.mem_range'_1, Prod.mk.injEq]
  constructor
  · rintro ⟨a, ha, b, hb, rfl, rfl⟩
    omega
  · rintro ⟨h1, h2⟩
    exact ⟨i, by omega, j, by omega, rfl, rfl⟩

theorem indexPairs_split (n i j : Nat) (h : (i, j) ∈ indexPairs n) :
    indexPairs n = pairsBefore n i j ++ (i, j) :: pairsAfter n i j ∧
      (i, j) ∉ pairsBefore n i j ∧ (i, j) ∉ pairsAfter n i j :=
  split_at_mem (i, j) (indexPairs n) h (indexPairs_nodup n)

theorem pairsBefore_of_not_mem (n i j : Nat) (h : (i, j) ∉ indexPairs n) :
    pairsBefore n i j = indexPairs n := by
  unfold pairsBefore
  rw [List.takeWhile_eq_self_iff]
  intro p hp
  have : p ≠ (i, j) := by
    rintro rfl
    exact h hp
  simpa using this

/-! ## One pair -/

/-- The four outcomes of the visit of a pair: skipped, tested without overlap,
notified only, and notified with joints created and contacts counted. -/
theorem visitPair_eq {CL JG S : Type} (env : Services CL JG S) (i j : Nat) (o1 o2 : Object)
    (s : Sweep CL JG S) :
    visitPair env i j o1 o2 s =
      if tested env s.store o1 o2 then
        if env.Test s.store o1.GetGeometry o2.GetGeometry then
          if masksShare env (listAfter env s o1 o2).2 o1 o2 then
            { world :=
                { contactCount :=
                    wrapInt32 (s.world.contactCount + env.Count (listAfter env s o1 o2).1)
                  contactGroup := env.CreateJoints (listAfter env s o1 o2).1 s.world.contactGroup
                  contactList := (listAfter env s o1 o2).1 }
              store := (listAfter env s o1 o2).2
              calls := s.calls ++ [Call.Test i j, Call.Reset i j, Call.Find i j,
                Call.Finalize i j, Call.CreateJoints i j, Call.Count i j]
              joints := s.joints ++ [(i, j, (listAfter env s o1 o2).1)] }
          else
            { world := { s.world with contactList := (listAfter env s o1 o2).1 }
              store := (listAfter env s o1 o2).2
              calls := s.calls ++ [Call.Test i j, Call.Reset i j, Call.Find i j,
                Call.Finalize i j]
              joints := s.joints }
        else { s with calls := s.calls ++ [Call.Test i j] }
      else s := by
  unfold visitPair intersectPair tested masksShare hasCallback listAfter
  cases o1.IsDynamic <;> cases o2.IsDynamic <;>
    cases hm : ((env.Property s.store o1).collisionMask &&&
      (env.Property s.store o2).collisionMask) == 0 <;>
    cases hc1 : (env.Property s.store o1).callback == 0 <;>
    cases hc2 : (env.Property s.store o2).callback == 0 <;>
    cases ht : env.Test s.store o1.GetGeometry o2.GetGeometry <;>
    simp_all [bne]

theorem visitPair_calls {CL JG S : Type} (env : Services CL JG S) (i j : Nat) (o1 o2 : Object)
    (s : Sweep CL JG S) :
    (visitPair env i j o1 o2 s).calls = s.calls ++ pairCalls env i j o1 o2 s := by
  rw [visitPair_eq]
  unfold pairCalls
  split_ifs <;> simp

theorem visitPair_joints {CL JG S : Type} (env : Services CL JG S) (i j : Nat) (o1 o2 : Object)
    (s : Sweep CL JG S) :
    (visitPair env i j o1 o2 s).joints = s.joints ++ pairJoints env i j o1 o2 s := by
  rw [visitPair_eq]
  unfold pairJoints
  split_ifs <;> simp_all

theorem pairStep_calls {CL JG S : Type} (env : Services CL JG S) (space : List Entry)
    (s : Sweep CL JG S) (p : Nat × Nat) :
    (pairStep env space s p).calls = s.calls ++ stepCalls env space s p := by
  unfold pairStep stepCalls
  split
  · exact visitPair_calls env _ _ _ _ s
  · simp

theorem pairStep_joints {CL JG S : Type} (env : Services CL JG S) (space : List Entry)
    (s : Sweep CL JG S) (p : Nat × Nat) :
    (pairStep env space s p).joints = s.joints ++ stepJoints env space s p := by
  unfold pairStep stepJoints
  split
  · exact visitPair_joints env _ _ _ _ s
  · simp

theorem mem_pairCalls_pos {CL JG S : Type} (env : Services CL JG S) (i j : Nat)
    (o1 o2 : Object) (s : Sweep CL JG S) (c : Call) (h : c ∈ pairCalls env i j o1 o2 s) :
    c.first = i ∧ c.second = j ∧ 1 ≤ c.phase := by
  have hall : ∀ d ∈ pairCalls env i j o1 o2 s, d.first = i ∧ d.second = j ∧ 1 ≤ d.phase := by
    unfold pairCalls
    split_ifs <;> simp [Call.first, Call.second, Call.phase]
  exact hall c h

theorem pairCalls_pairwise {CL JG S : Type} (env : Services CL JG S) (i j : Nat)
    (o1 o2 : Object) (s : Sweep CL JG S) :
    (pairCalls env i j o1 o2 s).Pairwise fun a b => a.phase < b.phase := by
  unfold pairCalls
  split_ifs <;> simp [Call.phase]

theorem mem_stepCalls_iff {CL JG S : Type} (env : Services CL JG S) (space : List Entry)
    (s : Sweep CL JG S) (p : Nat × Nat) (c : Call) :
    c ∈ stepCalls env space s p ↔
      ∃ o1 o2, space[p.1]? = some (some o1) ∧ space[p.2]? = some (some o2) ∧
        c ∈ pairCalls env p.1 p.2 o1 o2 s := by
  unfold stepCalls
  constructor
  · intro h
    split at h
    · next o1 o2 h1 h2 => exact ⟨o1, o2, h1, h2, h⟩
    · simp at h
  · rintro ⟨o1, o2, h1, h2, h⟩
    rw [h1, h2]
    exact h

theorem mem_stepJoints_iff {CL JG S : Type} (env : Services CL JG S) (space : List Entry)
    (s : Sweep CL JG S) (p : Nat × Nat) (r : Nat × Nat × CL) :
    r ∈ stepJoints env space s p ↔
      ∃ o1 o2, space[p.1]? = some (some o1) ∧ space[p.2]? = some (some o2) ∧
        r ∈ pairJoints env p.1 p.2 o1 o2 s := by
  unfold stepJoints
  constructor
  · intro h
    split at h
    · next o1 o2 h1 h2 => exact ⟨o1, o2, h1, h2, h⟩
    · simp at h
  · rintro ⟨o1, o2, h1, h2, h⟩
    rw [h1, h2]
    exact h

theorem stepCalls_pair {CL JG S : Type} (env : Services CL JG S) (space : List Entry)
    (s : Sweep CL JG S) (p : Nat × Nat) (c : Call) (h : c ∈ stepCalls env space s p) :
    c.pair = p := by
  obtain ⟨o1, o2, _, _, hc⟩ := (mem_stepCalls_iff env space s p c).1 h
  obtain ⟨h1, h2, _⟩ := mem_pairCalls_pos env _ _ o1 o2 s c hc
  unfold Call.pair
  rw [h1, h2]

theorem stepCalls_phase {CL JG S : Type} (env : Services CL JG S) (space : List Entry)
    (s : Sweep CL JG S) (p : Nat × Nat) (c : Call) (h : c ∈ stepCalls env space s p) :
    1 ≤ c.phase := by
  obtain ⟨o1, o2, _, _, hc⟩ := (mem_stepCalls_iff env space s p c).1 h
  exact (mem_pairCalls_pos env _ _ o1 o2 s c hc).2.2

theorem stepCalls_pairwise {CL JG S : Type} (env : Services CL JG S) (space : List Entry)
    (s : Sweep CL JG S) (p : Nat × Nat) : (stepCalls env space s p).Pairwise Call.before := by
  have hp : (stepCalls env space s p).Pairwise fun a b => a.phase < b.phase := by
    unfold stepCalls
    split
    · exact pairCalls_pairwise env _ _ _ _ s
    · exact List.Pairwise.nil
  refine List.Pairwise.imp_of_mem ?_ hp
  intro a b ha hb hab
  have h1 := stepCalls_pair env space s p a ha
  have h2 := stepCalls_pair env space s p b hb
  unfold Call.pair at h1 h2
  rw [Prod.ext_iff] at h1 h2
  exact Or.inr ⟨h1.1.trans h2.1.symm, h1.2.trans h2.2.symm, hab⟩

theorem stepJoints_pair {CL JG S : Type} (env : Services CL JG S) (space : List Entry)
    (s : Sweep CL JG S) (p : Nat × Nat) (r : Nat × Nat × CL)
    (h : r ∈ stepJoints env space s p) : jointPair r = p := by
  obtain ⟨o1, o2, _, _, hr⟩ := (mem_stepJoints_iff env space s p r).1 h
  unfold pairJoints at hr
  split_ifs at hr
  · rw [List.mem_singleton] at hr
    rw [hr]
    rfl
  · simp at hr

/-! ## The loops as a fold over the position pairs -/

theorem innerLoop_eq_foldl {CL JG S : Type} (env : Services CL JG S) (space : List Entry)
    (i : Nat) (o1 : Object) (hi : space[i]? = some (some o1)) :
    ∀ (rest : List Entry) (j : Nat) (s : Sweep CL JG S), space.drop j = rest →
      innerLoop env i o1 j rest s =
        (List.range' j rest.length).foldl (fun t k => pairStep env space t (i, k)) s := by
  intro rest
  induction rest with
  | nil => intro j s _; simp [innerLoop]
  | cons e rest ih =>
      intro j s hd
      obtain ⟨hj, hd1, _⟩ := drop_cons_inv space j e rest hd
      cases e with
      | none =>
          have hc : pairStep env space s (i, j) = s := by simp [pairStep, hi, hj]
          simp only [innerLoop, List.length_cons, List.range'_succ, List.foldl_cons]
          rw [ih (j + 1) s hd1, hc]
      | some o2 =>
          have hc : pairStep env space s (i, j) = visitPair env i j o1 o2 s := by
            simp [pairStep, hi, hj]
          simp only [innerLoop, List.length_cons, List.range'_succ, List.foldl_cons]
          rw [ih (j + 1) _ hd1, hc]

theorem foldl_pairStep_none {CL JG S : Type} (env : Services CL JG S) (space : List Entry)
    (i : Nat) (hi : space[i]? = some none) :
    ∀ (l : List Nat) (s : Sweep CL JG S),
      l.foldl (fun t k => pairStep env space t (i, k)) s = s
  | [], s => rfl
  | k :: l, s => by
      have hc : pairStep env space s (i, k) = s := by simp [pairStep, hi]
      rw [List.foldl_cons, hc, foldl_pairStep_none env space i hi l s]

theorem outerLoop_eq_foldl {CL JG S : Type} (env : Services CL JG S) (space : List Entry) :
    ∀ (rest : List Entry) (i : Nat) (s : Sweep CL JG S), space.drop i = rest →
      outerLoop env i rest s =
        (List.range' i rest.length).foldl (fun t a =>
          (List.range' (a + 1) (space.length - (a + 1))).foldl
            (fun u k => pairStep env space u (a, k)) t) s := by
  intro rest
  induction rest with
  | nil => intro i s _; simp [outerLoop]
  | cons e rest ih =>
      intro i s hd
      obtain ⟨hi, hd1, hlen⟩ := drop_cons_inv space i e rest hd
      cases e with
      | none =>
          simp only [outerLoop, List.length_cons, List.range'_succ, List.foldl_cons]
          rw [ih (i + 1) s hd1, foldl_pairStep_none env space i hi]
      | some o1 =>
          simp only [outerLoop, List.length_cons, List.range'_succ, List.foldl_cons]
          rw [ih (i + 1) _ hd1, innerLoop_eq_foldl env space i o1 hi rest (i + 1) s hd1, hlen]

/-- The two loops visit the position pairs `(i, j)`, `i < j`, in lexicographic
order, skipping those with an entry that resolves to no object. -/
theorem GenerateContacts_eq_foldl {CL JG S : Type} (env : Services CL JG S) (w : World CL JG)
    (st : S) (space : List Entry) :
    GenerateContacts env w st space =
      (indexPairs space.length).foldl (pairStep env space) (initial env w st) := by
  unfold GenerateContacts indexPairs
  rw [outerLoop_eq_foldl env space space 0 _ (by simp), foldl_flatMap_eq]
  congr 1
  funext t a
  rw [List.foldl_map]

/-- The sweep reaches the pair `(i, j)` in the state `stateAt`, visits it, and
goes on with the pairs that come after. -/
theorem GenerateContacts_split {CL JG S : Type} (env : Services CL JG S) (w : World CL JG)
    (st : S) (space : List Entry) (i j : Nat) (h : (i, j) ∈ indexPairs space.length) :
    GenerateContacts env w st space =
      (pairsAfter space.length i j).foldl (pairStep env space)
        (pairStep env space (stateAt env w st space i j) (i, j)) := by
  rw [GenerateContacts_eq_foldl]
  conv_lhs => rw [(indexPairs_split space.length i j h).1]
  rw [List.foldl_append, List.foldl_cons]
  rfl

theorem stateAt_of_not_mem {CL JG S : Type} (env : Services CL JG S) (w : World CL JG)
    (st : S) (space : List Entry) (i j : Nat) (h : (i, j) ∉ indexPairs space.length) :
    stateAt env w st space i j = GenerateContacts env w st space := by
  unfold stateAt
  rw [pairsBefore_of_not_mem _ i j h, GenerateContacts_eq_foldl]

/-! ## What a fold over position pairs appends to a log -/

theorem foldl_log_mem {CL JG S α : Type} (env : Services CL JG S) (space : List Entry)
    (f : Sweep CL JG S → List α) (ext : Sweep CL JG S → Nat × Nat → List α)
    (tag : α → Nat × Nat)
    (hstep : ∀ s p, f (pairStep env space s p) = f s ++ ext s p)
    (htag : ∀ s p x, x ∈ ext s p → tag x = p) :
    ∀ (l : List (Nat × Nat)) (s : Sweep CL JG S) (x : α),
      x ∈ f (l.foldl (pairStep env space) s) → x ∈ f s ∨ tag x ∈ l
  | [], s, x, h => Or.inl h
  | p :: l, s, x, h => by
      rw [List.foldl_cons] at h
      rcases foldl_log_mem env space f ext tag hstep htag l _ x h with h1 | h1
      · rw [hstep, List.mem_append] at h1
        rcases h1 with h2 | h2
        · exact Or.inl h2
        · exact Or.inr (by rw [htag s p x h2]; exact List.mem_cons_self p l)
      · exact Or.inr (List.mem_cons_of_mem p h1)

theorem foldl_log_mono {CL JG S α : Type} (env : Services CL JG S) (space : List Entry)
    (f : Sweep CL JG S → List α) (ext : Sweep CL JG S → Nat × Nat → List α)
    (hstep : ∀ s p, f (pairStep env space s p) = f s ++ ext s p) :
    ∀ (l : List (Nat × Nat)) (s : Sweep CL JG S) (x : α),
      x ∈ f s → x ∈ f (l.foldl (pairStep env space) s)
  | [], _, _, h => h
  | p :: l, s, x, h => by
      rw [List.foldl_cons]
      refine foldl_log_mono env space f ext hstep l _ x ?_
      rw [hstep]
      exact List.mem_append_left _ h

theorem log_mem_pair {CL JG S α : Type} (env : Services CL JG S) (w : World CL JG) (st : S)
    (space : List Entry) (f : Sweep CL JG S → List α)
    (ext : Sweep CL JG S → Nat × Nat → List α) (tag : α → Nat × Nat)
    (hstep : ∀ s p, f (pairStep env space s p) = f s ++ ext s p)
    (htag : ∀ s p x, x ∈ ext s p → tag x = p) (x : α)
    (h : x ∈ f (GenerateContacts env w st space)) :
    x ∈ f (initial env w st) ∨ tag x ∈ indexPairs space.length := by
  rw [GenerateContacts_eq_foldl] at h
  exact foldl_log_mem env space f ext tag hstep htag _ _ x h

theorem log_mem_at {CL JG S α : Type} (env : Services CL JG S) (w : World CL JG) (st : S)
    (space : List Entry) (f : Sweep CL JG S → List α)
    (ext : Sweep CL JG S → Nat × Nat → List α) (tag : α → Nat × Nat)
    (hstep : ∀ s p, f (pairStep env space s p) = f s ++ ext s p)
    (htag : ∀ s p x, x ∈ ext s p → tag x = p) (i j : Nat)
    (hp : (i, j) ∈ indexPairs space.length) (x : α) (hx : tag x = (i, j))
    (hinit : x ∉ f (initial env w st)) :
    x ∈ f (GenerateContacts env w st space) ↔ x ∈ ext (stateAt env w st space i j) (i, j) := by
  obtain ⟨_, hb, ha⟩ := indexPairs_split space.length i j hp
  rw [GenerateContacts_split env w st space i j hp]
  constructor
  · intro h
    rcases foldl_log_mem env space f ext tag hstep htag _ _ x h with h1 | h1
    · rw [hstep, List.mem_append] at h1
      rcases h1 with h2 | h2
      · rcases foldl_log_mem env space f ext tag hstep htag _ _ x h2 with h3 | h3
        · exact absurd h3 hinit
        · exact absurd (hx ▸ h3) hb
      · exact h2
    · exact absurd (hx ▸ h1) ha
  · intro h
    refine foldl_log_mono env space f ext hstep _ _ x ?_
    rw [hstep]
    exact List.mem_append_right _ h

theorem foldl_preserves {CL JG S : Type} (env : Services CL JG S) (space : List Entry)
    (P : Sweep CL JG S → Prop) (hP : ∀ s p, P s → P (pairStep env space s p)) :
    ∀ (l : List (Nat × Nat)) (s : Sweep CL JG S), P s → P (l.foldl (pairStep env space) s)
  | [], _, h => h
  | p :: l, s, h => by
      rw [List.foldl_cons]
      exact foldl_preserves env space P hP l _ (hP s p h)

theorem GenerateContacts_preserves {CL JG S : Type} (env : Services CL JG S) (w : World CL JG)
    (st : S) (space : List Entry) (P : Sweep CL JG S → Prop)
    (hP : ∀ s p, P s → P (pairStep env space s p)) (h0 : P (initial env w st)) :
    P (GenerateContacts env w st space) := by
  rw [GenerateContacts_eq_foldl]
  exact foldl_preserves env space P hP _ _ h0

/-! ## The calls of a sweep -/

theorem mem_calls_iff {CL JG S : Type} (env : Services CL JG S) (w : World CL JG) (st : S)
    (space : List Entry) (c : Call) (hne : c ≠ Call.JointGroupEmpty) :
    c ∈ (GenerateContacts env w st space).calls ↔
      c.pair ∈ indexPairs space.length ∧
        c ∈ stepCalls env space (stateAt env w st space c.first c.second) c.pair := by
  have hinit : c ∉ (initial env w st).calls := by
    simp [initial, hne]
  constructor
  · intro h
    have hp : c.pair ∈ indexPairs space.length := by
      rcases log_mem_pair env w st space Sweep.calls (stepCalls env space) Call.pair
        (pairStep_calls env space) (stepCalls_pair env space) c h with h1 | h1
      · exact absurd h1 hinit
      · exact h1
    exact ⟨hp, (log_mem_at env w st space Sweep.calls (stepCalls env space) Call.pair
      (pairStep_calls env space) (stepCalls_pair env space) c.first c.second hp c rfl
      hinit).1 h⟩
  · rintro ⟨hp, h⟩
    exact (log_mem_at env w st space Sweep.calls (stepCalls env space) Call.pair
      (pairStep_calls env space) (stepCalls_pair env space) c.first c.second hp c rfl
      hinit).2 h

theorem mem_calls_at {CL JG S : Type} (env : Services CL JG S) (w : World CL JG) (st : S)
    (space : List Entry) (i j : Nat) (o1 o2 : Object) (h1 : space[i]? = some (some o1))
    (h2 : space[j]? = some (some o2)) (c : Call) (hne : c ≠ Call.JointGroupEmpty)
    (hi : c.first = i) (hj : c.second = j) :
    c ∈ (GenerateContacts env w st space).calls ↔
      i < j ∧ c ∈ pairCalls env i j o1 o2 (stateAt env w st space i j) := by
  have hlen : j < space.length := (List.getElem?_eq_some_iff.1 h2).1
  rw [mem_calls_iff env w st space c hne, mem_indexPairs, mem_stepCalls_iff]
  unfold Call.pair
  simp only [hi, hj]
  constructor
  · rintro ⟨⟨hij, _⟩, p1, p2, q1, q2, hp⟩
    obtain rfl : o1 = p1 := Option.some.inj (Option.some.inj (h1.symm.trans q1))
    obtain rfl : o2 = p2 := Option.some.inj (Option.some.inj (h2.symm.trans q2))
    exact ⟨hij, hp⟩
  · rintro ⟨hij, hp⟩
    exact ⟨⟨hij, hlen⟩, o1, o2, h1, h2, hp⟩

theorem mem_calls_pos {CL JG S : Type} (env : Services CL JG S) (w : World CL JG) (st : S)
    (space : List Entry) (c : Call) (hne : c ≠ Call.JointGroupEmpty)
    (h : c ∈ (GenerateContacts env w st space).calls) :
    c.first < c.second ∧ c.second < space.length ∧
      ∃ o1 o2, space[c.first]? = some (some o1) ∧ space[c.second]? = some (some o2) ∧
        c ∈ pairCalls env c.first c.second o1 o2
          (stateAt env w st space c.first c.second) := by
  obtain ⟨hp, hs⟩ := (mem_calls_iff env w st space c hne).1 h
  rw [mem_indexPairs] at hp
  exact ⟨hp.1, hp.2, (mem_stepCalls_iff env space _ _ c).1 hs⟩

theorem before_irrefl (a : Call) : ¬ Call.before a a := by
  unfold Call.before lexLt
  omega

theorem before_asymm (a b : Call) (h : Call.before a b) : ¬ Call.before b a := by
  unfold Call.before lexLt at *
  omega

theorem foldl_calls_pairwise {CL JG S : Type} (env : Services CL JG S) (space : List Entry) :
    ∀ (l : List (Nat × Nat)) (s : Sweep CL JG S), l.Pairwise lexLt →
      s.calls.Pairwise Call.before → (∀ c ∈ s.calls, ∀ p ∈ l, lexLt c.pair p) →
        (l.foldl (pairStep env space) s).calls.Pairwise Call.before
  | [], _, _, h, _ => h
  | p :: l, s, hl, hs, hsl => by
      rw [List.foldl_cons]
      rw [List.pairwise_cons] at hl
      refine foldl_calls_pairwise env space l _ hl.2 ?_ ?_
      · rw [pairStep_calls, List.pairwise_append]
        refine ⟨hs, stepCalls_pairwise env space s p, ?_⟩
        intro a ha b hb
        have h1 := hsl a ha p (List.mem_cons_self p l)
        have h2 := stepCalls_pair env space s p b hb
        rw [← h2] at h1
        exact Or.inl h1
      · intro c hc q hq
        rw [pairStep_calls, List.mem_append] at hc
        rcases hc with hc | hc
        · exact hsl c hc q (List.mem_cons_of_mem p hq)
        · rw [stepCalls_pair env space s p c hc]
          exact hl.1 q hq

theorem calls_pairwise {CL JG S : Type} (env : Services CL JG S) (w : World CL JG) (st : S)
    (space : List Entry) : (GenerateContacts env w st space).calls.Pairwise Call.before := by
  rw [GenerateContacts_eq_foldl]
  refine foldl_calls_pairwise env space _ _ (indexPairs_pairwise _) ?_ ?_
  · simp [initial]
  · intro c hc p hp
    have hc1 : c = Call.JointGroupEmpty := by simpa [initial] using hc
    rw [mem_indexPairs] at hp
    subst hc1
    unfold lexLt Call.pair
    have e1 : Call.JointGroupEmpty.first = 0 := rfl
    have e2 : Call.JointGroupEmpty.second = 0 := rfl
    simp only [e1, e2]
    omega

theorem calls_nodup {CL JG S : Type} (env : Services CL JG S) (w : World CL JG) (st : S)
    (space : List Entry) : (GenerateContacts env w st space).calls.Nodup := by
  refine List.Pairwise.imp ?_ (calls_pairwise env w st space)
  intro a b hab heq
  subst heq
  exact before_irrefl a hab

theorem ordered_of_before {CL JG S : Type} (env : Services CL JG S) (w : World CL JG) (st : S)
    (space : List Entry) (a b : Call) (ha : a ∈ (GenerateContacts env w st space).calls)
    (hb : b ∈ (GenerateContacts env w st space).calls) (hab : Call.before a b) :
    [a, b].Sublist (GenerateContacts env w st space).calls ∧
      ¬ [b, a].Sublist (GenerateContacts env w st space).calls := by
  have hne : a ≠ b := by
    rintro rfl
    exact before_irrefl a hab
  have hrev : ¬ [b, a].Sublist (GenerateContacts env w st space).calls := by
    intro h
    have hp := List.Pairwise.sublist h (calls_pairwise env w st space)
    rw [List.pairwise_pair] at hp
    exact before_asymm a b hab hp
  rcases sublist_pair_of_mem a b hne _ ha hb with h | h
  · exact ⟨h, hrev⟩
  · exact absurd h hrev

theorem test_mem_pairCalls {CL JG S : Type} (env : Services CL JG S) (i j : Nat)
    (o1 o2 : Object) (s : Sweep CL JG S) :
    Call.Test i j ∈ pairCalls env i j o1 o2 s ↔ tested env s.store o1 o2 = true := by
  unfold pairCalls
  split_ifs <;> simp [*]

theorem reset_mem_pairCalls {CL JG S : Type} (env : Services CL JG S) (i j : Nat)
    (o1 o2 : Object) (s : Sweep CL JG S) :
    Call.Reset i j ∈ pairCalls env i j o1 o2 s ↔
      tested env s.store o1 o2 = true ∧
        env.Test s.store o1.GetGeometry o2.GetGeometry = true := by
  unfold pairCalls
  split_ifs <;> simp [*]

theorem find_mem_pairCalls {CL JG S : Type} (env : Services CL JG S) (i j : Nat)
    (o1 o2 : Object) (s : Sweep CL JG S) :
    Call.Find i j ∈ pairCalls env i j o1 o2 s ↔
      tested env s.store o1 o2 = true ∧
        env.Test s.store o1.GetGeometry o2.GetGeometry = true := by
  unfold pairCalls
  split_ifs <;> simp [*]

theorem finalize_mem_pairCalls {CL JG S : Type} (env : Services CL JG S) (i j : Nat)
    (o1 o2 : Object) (s : Sweep CL JG S) :
    Call.Finalize i j ∈ pairCalls env i j o1 o2 s ↔
      tested env s.store o1 o2 = true ∧
        env.Test s.store o1.GetGeometry o2.GetGeometry = true := by
  unfold pairCalls
  split_ifs <;> simp [*]

theorem createJoints_mem_pairCalls {CL JG S : Type} (env : Services CL JG S) (i j : Nat)
    (o1 o2 : Object) (s : Sweep CL JG S) :
    Call.CreateJoints i j ∈ pairCalls env i j o1 o2 s ↔
      tested env s.store o1 o2 = true ∧
        env.Test s.store o1.GetGeometry o2.GetGeometry = true ∧
        masksShare env (listAfter env s o1 o2).2 o1 o2 = true := by
  unfold pairCalls
  split_ifs <;> simp [*]

theorem count_mem_pairCalls {CL JG S : Type} (env : Services CL JG S) (i j : Nat)
    (o1 o2 : Object) (s : Sweep CL JG S) :
    Call.Count i j ∈ pairCalls env i j o1 o2 s ↔
      tested env s.store o1 o2 = true ∧
        env.Test s.store o1.GetGeometry o2.GetGeometry = true ∧
        masksShare env (listAfter env s o1 o2).2 o1 o2 = true := by
  unfold pairCalls
  split_ifs <;> simp [*]

theorem mem_pairJoints_iff {CL JG S : Type} (env : Services CL JG S) (i j : Nat)
    (o1 o2 : Object) (s : Sweep CL JG S) (r : Nat × Nat × CL) :
    r ∈ pairJoints env i j o1 o2 s ↔
      (tested env s.store o1 o2 = true ∧
        env.Test s.store o1.GetGeometry o2.GetGeometry = true ∧
        masksShare env (listAfter env s o1 o2).2 o1 o2 = true) ∧
      r = (i, j, (listAfter env s o1 o2).1) := by
  unfold pairJoints
  split_ifs with h
  · simp only [Bool.and_eq_true] at h
    simp [h]
  · simp only [Bool.and_eq_true] at h
    simp only [List.not_mem_nil, false_iff]
    rintro ⟨⟨a, b, c⟩, _⟩
    exact h ⟨⟨a, b⟩, c⟩

theorem tested_false_of_static {CL JG S : Type} (env : Services CL JG S) (st : S)
    (o1 o2 : Object) (h1 : o1.IsDynamic = false) (h2 : o2.IsDynamic = false) :
    tested env st o1 o2 = false := by
  simp [tested, h1, h2]

theorem tested_false_of_gate {CL JG S : Type} (env : Services CL JG S) (st : S)
    (o1 o2 : Object)
    (hm : (env.Property st o1).collisionMask &&& (env.Property st o2).collisionMask = 0)
    (h1 : (env.Property st o1).callback = 0) (h2 : (env.Property st o2).callback = 0) :
    tested env st o1 o2 = false := by
  simp [tested, masksShare, hasCallback, hm, h1, h2]

theorem pairCalls_of_not_tested {CL JG S : Type} (env : Services CL JG S) (i j : Nat)
    (o1 o2 : Object) (s : Sweep CL JG S) (h : tested env s.store o1 o2 = false) :
    pairCalls env i j o1 o2 s = [] := by
  simp [pairCalls, h]

theorem visitPair_of_not_tested {CL JG S : Type} (env : Services CL JG S) (i j : Nat)
    (o1 o2 : Object) (s : Sweep CL JG S) (h : tested env s.store o1 o2 = false) :
    visitPair env i j o1 o2 s = s := by
  rw [visitPair_eq]
  simp [h]

theorem not_mem_calls_of_not_tested {CL JG S : Type} (env : Services CL JG S)
    (w : World CL JG) (st : S) (space : List Entry) (i j : Nat) (o1 o2 : Object)
    (h1 : space[i]? = some (some o1)) (h2 : space[j]? = some (some o2))
    (ht : tested env (stateAt env w st space i j).store o1 o2 = false) (c : Call)
    (hne : c ≠ Call.JointGroupEmpty) (hi : c.first = i) (hj : c.second = j) :
    c ∉ (GenerateContacts env w st space).calls := by
  intro hc
  have := ((mem_calls_at env w st space i j o1 o2 h1 h2 c hne hi hj).1 hc).2
  rw [pairCalls_of_not_tested env i j o1 o2 _ ht] at this
  simp at this

theorem test_mem_calls_iff {CL JG S : Type} (env : Services CL JG S) (w : World CL JG) (st : S)
    (space : List Entry) (i j : Nat) :
    Call.Test i j ∈ (GenerateContacts env w st space).calls ↔
      shouldTest env (stateAt env w st space i j).store space i j = true := by
  constructor
  · intro h
    obtain ⟨hij, _, o1, o2, q1, q2, hp⟩ :=
      mem_calls_pos env w st space (Call.Test i j) (by simp) h
    have e1 : (Call.Test i j).first = i := rfl
    have e2 : (Call.Test i j).second = j := rfl
    simp only [e1, e2] at hij q1 q2 hp
    rw [test_mem_pairCalls] at hp
    simp [shouldTest, hij, q1, q2, hp]
  · intro h
    unfold shouldTest at h
    rw [Bool.and_eq_true, decide_eq_true_eq] at h
    obtain ⟨hij, hm⟩ := h
    split at hm
    · next o1 o2 q1 q2 =>
        exact (mem_calls_at env w st space i j o1 o2 q1 q2 (Call.Test i j) (by simp) rfl
          rfl).2 ⟨hij, (test_mem_pairCalls env i j o1 o2 _).2 hm⟩
    · simp at hm

theorem shouldTest_iff {CL JG S : Type} (env : Services CL JG S) (st : S) (space : List Entry)
    (i j : Nat) :
    shouldTest env st space i j = true ↔
      i < j ∧ ∃ o1 o2, space[i]? = some (some o1) ∧ space[j]? = some (some o2) ∧
        (o1.IsDynamic = true ∨ o2.IsDynamic = true) ∧
        ((env.Property st o1).collisionMask &&& (env.Property st o2).collisionMask ≠ 0 ∨
          (env.Property st o1).callback ≠ 0 ∨ (env.Property st o2).callback ≠ 0) := by
  unfold shouldTest
  rcases h1 : space[i]? with _ | _ | o1 <;> rcases h2 : space[j]? with _ | _ | o2 <;>
    simp [tested, masksShare, hasCallback, or_assoc]

/-! ## Invariants of the sweep -/

theorem wrapInt32_add (a b : Int) : wrapInt32 (wrapInt32 a + b) = wrapInt32 (a + b) := by
  unfold wrapInt32
  omega

theorem wrapInt32_of_range (x : Int) (h1 : -2147483648 ≤ x) (h2 : x ≤ 2147483647) :
    wrapInt32 x = x := by
  unfold wrapInt32
  omega

theorem wrapInt32_range (x : Int) : -2147483648 ≤ wrapInt32 x ∧ wrapInt32 x ≤ 2147483647 := by
  unfold wrapInt32
  omega

theorem countSum_append {CL JG S : Type} (env : Services CL JG S)
    (l : List (Nat × Nat × CL)) (r : Nat × Nat × CL) :
    countSum env (l ++ [r]) = countSum env l + env.Count (jointList r) := by
  simp [countSum]

theorem groupAfter_append {CL JG S : Type} (env : Services CL JG S) (g : JG)
    (l : List (Nat × Nat × CL)) (r : Nat × Nat × CL) :
    groupAfter env g (l ++ [r]) = env.CreateJoints (jointList r) (groupAfter env g l) := by
  simp [groupAfter]

theorem contactCount_eq_wrap_sum {CL JG S : Type} (env : Services CL JG S) (w : World CL JG)
    (st : S) (space : List Entry) :
    (GenerateContacts env w st space).world.contactCount =
      wrapInt32 (countSum env (GenerateContacts env w st space).joints) := by
  refine GenerateContacts_preserves env w st space
    (fun s => s.world.contactCount = wrapInt32 (countSum env s.joints)) ?_
    (by simp [initial, countSum, wrapInt32])
  intro s p h
  have hs : s.world.contactCount = wrapInt32 (countSum env s.joints) := h
  show (pairStep env space s p).world.contactCount =
    wrapInt32 (countSum env (pairStep env space s p).joints)
  unfold pairStep
  split
  · rw [visitPair_eq]
    split_ifs
    · simp only [countSum_append, jointList]
      rw [hs, wrapInt32_add]
    · exact hs
    · exact hs
    · exact hs
  · exact hs

theorem contactGroup_eq_groupAfter {CL JG S : Type} (env : Services CL JG S)
    (w : World CL JG) (st : S) (space : List Entry) :
    (GenerateContacts env w st space).world.contactGroup =
      groupAfter env (env.dJointGroupEmpty w.contactGroup)
        (GenerateContacts env w st space).joints := by
  refine GenerateContacts_preserves env w st space
    (fun s => s.world.contactGroup =
      groupAfter env (env.dJointGroupEmpty w.contactGroup) s.joints) ?_
    (by simp [initial, groupAfter])
  intro s p h
  have hs : s.world.contactGroup =
    groupAfter env (env.dJointGroupEmpty w.contactGroup) s.joints := h
  show (pairStep env space s p).world.contactGroup =
    groupAfter env (env.dJointGroupEmpty w.contactGroup) (pairStep env space s p).joints
  unfold pairStep
  split
  · rw [visitPair_eq]
    split_ifs
    · simp only [groupAfter_append, jointList]
      rw [hs]
    · exact hs
    · exact hs
    · exact hs
  · exact hs

theorem ContactCount_le_max {CL JG S : Type} (env : Services CL JG S) (w : World CL JG)
    (st : S) (space : List Entry) :
    (GenerateContacts env w st space).world.ContactCount ≤ 2147483647 := by
  show (GenerateContacts env w st space).world.contactCount ≤ 2147483647
  rw [contactCount_eq_wrap_sum]
  exact (wrapInt32_range _).2

theorem countPair_none_of_phase (c : Call) (h : c.phase ≠ 6) : c.countPair = none := by
  cases c <;> simp [Call.phase, Call.countPair] at h ⊢

theorem joints_pairs_eq {CL JG S : Type} (env : Services CL JG S) (w : World CL JG) (st : S)
    (space : List Entry) :
    (GenerateContacts env w st space).joints.map jointPair =
      (GenerateContacts env w st space).calls.filterMap Call.countPair := by
  refine GenerateContacts_preserves env w st space
    (fun s => s.joints.map jointPair = s.calls.filterMap Call.countPair) ?_
    (by simp [initial, Call.countPair])
  intro s p h
  have hs : s.joints.map jointPair = s.calls.filterMap Call.countPair := h
  show (pairStep env space s p).joints.map jointPair =
    (pairStep env space s p).calls.filterMap Call.countPair
  unfold pairStep
  split
  · rw [visitPair_eq]
    split_ifs
    · simp [hs, Call.countPair, jointPair]
    · simp [hs, Call.countPair]
    · simp [hs, Call.countPair]
    · exact hs
  · exact hs

theorem joints_pairwise {CL JG S : Type} (env : Services CL JG S) (w : World CL JG) (st : S)
    (space : List Entry) :
    ((GenerateContacts env w st space).joints.map jointPair).Pairwise lexLt := by
  rw [joints_pairs_eq, List.pairwise_filterMap]
  refine List.Pairwise.imp ?_ (calls_pairwise env w st space)
  intro a b hab p hp q hq
  cases a <;> simp [Call.countPair] at hp
  cases b <;> simp [Call.countPair] at hq
  subst hp hq
  rcases hab with h | h
  · exact h
  · simp [Call.phase] at h

theorem mem_joints_iff {CL JG S : Type} (env : Services CL JG S) (w : World CL JG) (st : S)
    (space : List Entry) (i j : Nat) (cl : CL) :
    (i, j, cl) ∈ (GenerateContacts env w st space).joints ↔
      i < j ∧ ∃ o1 o2, space[i]? = some (some o1) ∧ space[j]? = some (some o2) ∧
        tested env (stateAt env w st space i j).store o1 o2 = true ∧
        env.Test (stateAt env w st space i j).store o1.GetGeometry o2.GetGeometry = true ∧
        masksShare env (listAfter env (stateAt env w st space i j) o1 o2).2 o1 o2 = true ∧
        cl = (listAfter env (stateAt env w st space i j) o1 o2).1 := by
  have hinit : (i, j, cl) ∉ (initial env w st).joints := by simp [initial]
  constructor
  · intro h
    have hp : (i, j) ∈ indexPairs space.length := by
      rcases log_mem_pair env w st space Sweep.joints (stepJoints env space) jointPair
        (pairStep_joints env space) (stepJoints_pair env space) (i, j, cl) h with h1 | h1
      · exact absurd h1 hinit
      · exact h1
    have hs := (log_mem_at env w st space Sweep.joints (stepJoints env space) jointPair
      (pairStep_joints env space) (stepJoints_pair env space) i j hp (i, j, cl) rfl hinit).1 h
    obtain ⟨o1, o2, q1, q2, hr⟩ := (mem_stepJoints_iff env space _ _ _).1 hs
    obtain ⟨⟨a, b, c⟩, hcl⟩ := (mem_pairJoints_iff env i j o1 o2 _ _).1 hr
    rw [mem_indexPairs] at hp
    exact ⟨hp.1, o1, o2, q1, q2, a, b, c, by simpa using hcl⟩
  · rintro ⟨hij, o1, o2, q1, q2, a, b, c, rfl⟩
    have hp : (i, j) ∈ indexPairs space.length :=
      (mem_indexPairs _ _).2 ⟨hij, (List.getElem?_eq_some_iff.1 q2).1⟩
    refine (log_mem_at env w st space Sweep.joints (stepJoints env space) jointPair
      (pairStep_joints env space) (stepJoints_pair env space) i j hp
      (i, j, (listAfter env (stateAt env w st space i j) o1 o2).1) rfl hinit).2 ?_
    exact (mem_stepJoints_iff env space _ _ _).2
      ⟨o1, o2, q1, q2, (mem_pairJoints_iff env i j o1 o2 _ _).2 ⟨⟨a, b, c⟩, rfl⟩⟩

theorem joints_nil_of_no_count {CL JG S : Type} (env : Services CL JG S) (w : World CL JG)
    (st : S) (space : List Entry)
    (h : ∀ c ∈ (GenerateContacts env w st space).calls, c.phase ≠ 6) :
    (GenerateContacts env w st space).joints = [] := by
  have h1 := joints_pairs_eq env w st space
  have h2 : (GenerateContacts env w st space).calls.filterMap Call.countPair = [] := by
    rw [List.filterMap_eq_nil_iff]
    intro c hc
    exact countPair_none_of_phase c (h c hc)
  rw [h2] at h1
  exact List.map_eq_nil_iff.1 h1

theorem count_mem_of_joint_mem {CL JG S : Type} (env : Services CL JG S) (w : World CL JG)
    (st : S) (space : List Entry) (r : Nat × Nat × CL)
    (hr : r ∈ (GenerateContacts env w st space).joints) :
    Call.Count r.1 r.2.1 ∈ (GenerateContacts env w st space).calls := by
  have hm : jointPair r ∈ (GenerateContacts env w st space).joints.map jointPair :=
    List.mem_map_of_mem jointPair hr
  rw [joints_pairs_eq, List.mem_filterMap] at hm
  obtain ⟨c, hc, hcp⟩ := hm
  cases c <;> simp [Call.countPair, jointPair] at hcp
  obtain ⟨rfl, rfl⟩ := hcp
  exact hc

theorem store_of_quiet {CL JG S : Type} (env : Services CL JG S) (w : World CL JG) (st : S)
    (space : List Entry)
    (hq : ∀ cl s o, env.Property (env.Finalize cl s).2 o = env.Property s o) :
    ∀ (l : List (Nat × Nat)) (o : Object),
      env.Property (l.foldl (pairStep env space) (initial env w st)).store o =
        env.Property st o := by
  intro l
  refine foldl_preserves env space (fun s => ∀ o, env.Property s.store o = env.Property st o)
    ?_ l _ (fun _ => rfl)
  intro s p h o
  have hs : ∀ o, env.Property s.store o = env.Property st o := h
  show env.Property (pairStep env space s p).store o = env.Property st o
  unfold pairStep
  split
  · rw [visitPair_eq]
    split_ifs
    · show env.Property (listAfter env s _ _).2 o = _
      unfold listAfter
      rw [hq, hs]
    · show env.Property (listAfter env s _ _).2 o = _
      unfold listAfter
      rw [hq, hs]
    · exact hs o
    · exact hs o
  · exact hs o

/-! ## Counting position pairs -/

theorem length_flatMap_eq {α β : Type} (f : α → List β) :
    ∀ l : List α, (l.flatMap f).length = (l.map fun a => (f a).length).sum
  | [] => rfl
  | a :: l => by
      rw [List.flatMap_cons, List.length_append, List.map_cons, List.sum_cons,
        length_flatMap_eq f l]

theorem sum_range_sub (n : Nat) :
    ∀ m, m ≤ n →
      2 * ((List.range' 0 m).map fun i => n - (i + 1)).sum + m * (m + 1) = 2 * m * n
  | 0, _ => by simp
  | m + 1, h => by
      have ih := sum_range_sub n m (by omega)
      rw [List.range'_1_concat, List.map_append, List.sum_append]
      simp only [List.map_cons, List.map_nil, List.sum_cons, List.sum_nil, Nat.zero_add,
        Nat.add_zero]
      obtain ⟨d, rfl⟩ : ∃ d, n = m + 1 + d := ⟨n - (m + 1), by omega⟩
      have hd : m + 1 + d - (m + 1) = d := by omega
      rw [hd]
      have e : 2 * (((List.range' 0 m).map fun i => m + 1 + d - (i + 1)).sum + d) +
          (m + 1) * (m + 1 + 1) =
          (2 * ((List.range' 0 m).map fun i => m + 1 + d - (i + 1)).sum + m * (m + 1)) +
            (2 * d + 2 * (m + 1)) := by ring
      rw [e, ih]
      ring

theorem indexPairs_length (n : Nat) : 2 * (indexPairs n).length + n * (n + 1) = 2 * n * n := by
  unfold indexPairs
  rw [length_flatMap_eq]
  simp only [List.length_map, List.length_range']
  exact sum_range_sub n n (Nat.le_refl n)

theorem crowdSpace_getElem (n i : Nat) (h : i < n) :
    (crowdSpace n)[i]? = some (some (.Dynamic (i + 1) (i + 1))) := by
  unfold crowdSpace
  rw [List.getElem?_map, List.getElem?_range h]
  rfl

theorem crowd_all_counted (n : Nat) (p : Nat × Nat) (hp : p ∈ indexPairs n) :
    counted crowdServices plainStore (crowdSpace n) p.1 p.2 = true := by
  rw [mem_indexPairs] at hp
  unfold counted
  rw [crowdSpace_getElem n p.1 (by omega), crowdSpace_getElem n p.2 (by omega)]
  simp [hp.1, masksShare, crowdServices, sampleServices, plainStore, sampleProperties,
    Object.IsDynamic]

theorem eq_of_pairwise_of_mem_iff :
    ∀ (l1 l2 : List (Nat × Nat)), l1.Pairwise lexLt → l2.Pairwise lexLt →
      (∀ p, p ∈ l1 ↔ p ∈ l2) → l1 = l2
  | [], [], _, _, _ => rfl
  | [], b :: l2, _, _, h => by simpa using h b
  | a :: l1, [], _, _, h => by simpa using h a
  | a :: l1, b :: l2, h1, h2, h => by
      rw [List.pairwise_cons] at h1 h2
      have hab : a = b := by
        by_contra hne
        have ha : a ∈ l2 := by
          rcases List.mem_cons.1 ((h a).1 (List.mem_cons_self a l1)) with h3 | h3
          · exact absurd h3 hne
          · exact h3
        have hb : b ∈ l1 := by
          rcases List.mem_cons.1 ((h b).2 (List.mem_cons_self b l2)) with h3 | h3
          · exact absurd h3.symm hne
          · exact h3
        have c1 := h1.1 b hb
        have c2 := h2.1 a ha
        unfold lexLt at c1 c2
        omega
      subst hab
      have htail : ∀ p, p ∈ l1 ↔ p ∈ l2 := by
        intro p
        constructor
        · intro hp
          rcases List.mem_cons.1 ((h p).1 (List.mem_cons_of_mem a hp)) with h3 | h3
          · subst h3
            exact absurd (h1.1 p hp) (lexLt_irrefl p)
          · exact h3
        · intro hp
          rcases List.mem_cons.1 ((h p).2 (List.mem_cons_of_mem a hp)) with h3 | h3
          · subst h3
            exact absurd (h2.1 p hp) (lexLt_irrefl p)
          · exact h3
      rw [eq_of_pairwise_of_mem_iff l1 l2 h1.2 h2.2 htail]

theorem counted_iff {CL JG S : Type} (env : Services CL JG S) (st : S) (space : List Entry)
    (i j : Nat) :
    counted env st space i j = true ↔
      i < j ∧ ∃ o1 o2, space[i]? = some (some o1) ∧ space[j]? = some (some o2) ∧
        (o1.IsDynamic = true ∨ o2.IsDynamic = true) ∧ masksShare env st o1 o2 = true ∧
        env.Test st o1.GetGeometry o2.GetGeometry = true := by
  unfold counted
  rcases h1 : space[i]? with _ | _ | o1 <;> rcases h2 : space[j]? with _ | _ | o2 <;>
    simp [and_assoc]

theorem store_of_silent {CL JG S : Type} (env : Services CL JG S) (w : World CL JG) (st : S)
    (space : List Entry) (hq : ∀ cl s, (env.Finalize cl s).2 = s) :
    ∀ l : List (Nat × Nat), (l.foldl (pairStep env space) (initial env w st)).store = st := by
  intro l
  refine foldl_preserves env space (fun s => s.store = st) ?_ l _ rfl
  intro s p h
  have hs : s.store = st := h
  show (pairStep env space s p).store = st
  unfold pairStep
  split
  · rw [visitPair_eq]
    split_ifs
    · show (listAfter env s _ _).2 = st
      unfold listAfter
      rw [hq, hs]
    · show (listAfter env s _ _).2 = st
      unfold listAfter
      rw [hq, hs]
    · exact hs
    · exact hs
  · exact hs

theorem joints_pairs_of_silent {CL JG S : Type} (env : Services CL JG S) (w : World CL JG)
    (st : S) (space : List Entry) (hq : ∀ cl s, (env.Finalize cl s).2 = s) :
    (GenerateContacts env w st space).joints.map jointPair =
      (indexPairs space.length).filter fun p => counted env st space p.1 p.2 := by
  refine eq_of_pairwise_of_mem_iff _ _ (joints_pairwise env w st space)
    (List.Pairwise.filter _ (indexPairs_pairwise _)) ?_
  rintro ⟨i, j⟩
  have hst : (stateAt env w st space i j).store = st := store_of_silent env w st space hq _
  have hla : ∀ o1 o2, (listAfter env (stateAt env w st space i j) o1 o2).2 = st := by
    intro o1 o2
    unfold listAfter
    rw [hq, hst]
  rw [List.mem_filter, mem_indexPairs, counted_iff, List.mem_map]
  constructor
  · rintro ⟨⟨a, b, cl⟩, hr, hp⟩
    simp only [jointPair, Prod.mk.injEq] at hp
    obtain ⟨rfl, rfl⟩ := hp
    obtain ⟨hij, o1, o2, q1, q2, t1, t2, t3, _⟩ := (mem_joints_iff env w st space a b cl).1 hr
    rw [hst] at t1 t2
    rw [hla] at t3
    have hd : o1.IsDynamic = true ∨ o2.IsDynamic = true := by
      simp only [tested, Bool.and_eq_true, Bool.or_eq_true] at t1
      exact t1.1
    exact ⟨⟨hij, (List.getElem?_eq_some_iff.1 q2).1⟩, hij, o1, o2, q1, q2, hd, t3, t2⟩
  · rintro ⟨_, hij, o1, o2, q1, q2, hd, hm, ht⟩
    refine ⟨(i, j, (listAfter env (stateAt env w st space i j) o1 o2).1), ?_, rfl⟩
    refine (mem_joints_iff env w st space i j _).2 ⟨hij, o1, o2, q1, q2, ?_, ?_, ?_, rfl⟩
    · rw [hst]
      simp only [tested, Bool.and_eq_true, Bool.or_eq_true]
      exact ⟨hd, Or.inl hm⟩
    · rw [hst]
      exact ht
    · rw [hla]
      exact hm

/-! ## Claims about World::GenerateContacts -/

/-- C1: two entries whose objects are both Static never get an intersection
test, a `Finalize` call or a `CreateJoints` call, whatever their geometry,
masks and callbacks and whatever the callbacks of other pairs do; a sweep
over a container whose objects are all Static (`Entry.noBody` holds of every
entry) makes no `Finalize` and no `CreateJoints` call, leaves the joint group
as `dJointGroupEmpty` left it and ends with `ContactCount() == 0`: it ends in
the state that lines 175 and 176 set up. -/
theorem static_pairs_are_skipped {CL JG S : Type} (env : Services CL JG S) (w : World CL JG)
    (st : S) (space : List Entry) :
    (∀ i j o1 o2, space[i]? = some (some o1) → space[j]? = some (some o2) →
      o1.IsDynamic = false → o2.IsDynamic = false →
        Call.Test i j ∉ (GenerateContacts env w st space).calls ∧
        Call.Finalize i j ∉ (GenerateContacts env w st space).calls ∧
        Call.CreateJoints i j ∉ (GenerateContacts env w st space).calls) ∧
    ((∀ e ∈ space, Entry.noBody e = true) →
      (∀ i j, Call.Finalize i j ∉ (GenerateContacts env w st space).calls ∧
        Call.CreateJoints i j ∉ (GenerateContacts env w st space).calls) ∧
      (GenerateContacts env w st space).world.contactGroup =
        env.dJointGroupEmpty w.contactGroup ∧
      (GenerateContacts env w st space).world.ContactCount = 0 ∧
      GenerateContacts env w st space = initial env w st) := by
  constructor
  · intro i j o1 o2 h1 h2 d1 d2
    have ht := tested_false_of_static env (stateAt env w st space i j).store o1 o2 d1 d2
    exact ⟨not_mem_calls_of_not_tested env w st space i j o1 o2 h1 h2 ht _ (by simp) rfl rfl,
      not_mem_calls_of_not_tested env w st space i j o1 o2 h1 h2 ht _ (by simp) rfl rfl,
      not_mem_calls_of_not_tested env w st space i j o1 o2 h1 h2 ht _ (by simp) rfl rfl⟩
  · intro hall
    have hfin : GenerateContacts env w st space = initial env w st := by
      refine GenerateContacts_preserves env w st space (fun s => s = initial env w st) ?_ rfl
      intro s p hs
      show pairStep env space s p = initial env w st
      unfold pairStep
      split
      · next o1 o2 q1 q2 =>
          have m1 : some o1 ∈ space := List.getElem?_mem q1
          have m2 : some o2 ∈ space := List.getElem?_mem q2
          rw [visitPair_of_not_tested env _ _ o1 o2 s
            (tested_false_of_static env s.store o1 o2
              (by simpa [Entry.noBody] using hall _ m1)
              (by simpa [Entry.noBody] using hall _ m2))]
          exact hs
      · exact hs
    rw [hfin]
    refine ⟨fun i j => ⟨?_, ?_⟩, rfl, rfl, rfl⟩ <;> simp [initial]

/-- Witness of C1 on a container with two Static objects among others, and on
a container of Static objects only, all with a common mask bit and callbacks. -/
theorem static_pairs_are_skipped_witness :
    (Call.Test 0 1 ∉ (GenerateContacts sampleServices sampleWorld mixedStore mixedSpace).calls ∧
      Call.Finalize 0 1 ∉
        (GenerateContacts sampleServices sampleWorld mixedStore mixedSpace).calls ∧
      Call.CreateJoints 0 1 ∉
        (GenerateContacts sampleServices sampleWorld mixedStore mixedSpace).calls) ∧
    (GenerateContacts sampleServices sampleWorld callbackStore staticSpace).world.ContactCount
      = 0 :=
  ⟨(static_pairs_are_skipped sampleServices sampleWorld mixedStore mixedSpace).1 0 1 _ _
      rfl rfl rfl rfl,
    ((static_pairs_are_skipped sampleServices sampleWorld callbackStore staticSpace).2
      (by decide)).2.2.1⟩

/-- C2: two entries whose objects have, when the pair is met, collision masks
without a common bit and no callback get none of the calls `Test`, `Reset`,
`Find`, `Finalize`, `CreateJoints`, and the visit of the pair leaves the state
of the sweep as it was. When the callbacks of the sweep leave the properties
alone, the properties at the time a pair is met are those at the start. -/
theorem masked_pairs_are_skipped {CL JG S : Type} (env : Services CL JG S) (w : World CL JG)
    (st : S) (space : List Entry) (i j : Nat) (o1 o2 : Object)
    (h1 : space[i]? = some (some o1)) (h2 : space[j]? = some (some o2))
    (hmask : (env.Property (stateAt env w st space i j).store o1).collisionMask &&&
      (env.Property (stateAt env w st space i j).store o2).collisionMask = 0)
    (hc1 : (env.Property (stateAt env w st space i j).store o1).callback = 0)
    (hc2 : (env.Property (stateAt env w st space i j).store o2).callback = 0) :
    Call.Test i j ∉ (GenerateContacts env w st space).calls ∧
    Call.Reset i j ∉ (GenerateContacts env w st space).calls ∧
    Call.Find i j ∉ (GenerateContacts env w st space).calls ∧
    Call.Finalize i j ∉ (GenerateContacts env w st space).calls ∧
    Call.CreateJoints i j ∉ (GenerateContacts env w st space).calls ∧
    visitPair env i j o1 o2 (stateAt env w st space i j) = stateAt env w st space i j ∧
    ((∀ cl s o, env.Property (env.Finalize cl s).2 o = env.Property s o) →
      ∀ o, env.Property (stateAt env w st space i j).store o = env.Property st o) := by
  have ht := tested_false_of_gate env _ o1 o2 hmask hc1 hc2
  exact ⟨not_mem_calls_of_not_tested env w st space i j o1 o2 h1 h2 ht _ (by simp) rfl rfl,
    not_mem_calls_of_not_tested env w st space i j o1 o2 h1 h2 ht _ (by simp) rfl rfl,
    not_mem_calls_of_not_tested env w st space i j o1 o2 h1 h2 ht _ (by simp) rfl rfl,
    not_mem_calls_of_not_tested env w st space i j o1 o2 h1 h2 ht _ (by simp) rfl rfl,
    not_mem_calls_of_not_tested env w st space i j o1 o2 h1 h2 ht _ (by simp) rfl rfl,
    visitPair_of_not_tested env i j o1 o2 _ ht,
    fun hq o => store_of_quiet env w st space hq _ o⟩

/-- Witness of C2 on two overlapping Dynamic objects with masks `1` and `2`. -/
theorem masked_pairs_are_skipped_witness :
    Call.Test 0 1 ∉ (GenerateContacts sampleServices sampleWorld silentStore dynamicSpace).calls ∧
    Call.Reset 0 1 ∉
      (GenerateContacts sampleServices sampleWorld silentStore dynamicSpace).calls ∧
    Call.Find 0 1 ∉ (GenerateContacts sampleServices sampleWorld silentStore dynamicSpace).calls ∧
    Call.Finalize 0 1 ∉
      (GenerateContacts sampleServices sampleWorld silentStore dynamicSpace).calls ∧
    Call.CreateJoints 0 1 ∉
      (GenerateContacts sampleServices sampleWorld silentStore dynamicSpace).calls :=
  ⟨(masked_pairs_are_skipped sampleServices sampleWorld silentStore dynamicSpace 0 1 _ _
      rfl rfl (by decide) rfl rfl).1,
    (masked_pairs_are_skipped sampleServices sampleWorld silentStore dynamicSpace 0 1 _ _
      rfl rfl (by decide) rfl rfl).2.1,
    (masked_pairs_are_skipped sampleServices sampleWorld silentStore dynamicSpace 0 1 _ _
      rfl rfl (by decide) rfl rfl).2.2.1,
    (masked_pairs_are_skipped sampleServices sampleWorld silentStore dynamicSpace 0 1 _ _
      rfl rfl (by decide) rfl rfl).2.2.2.1,
    (masked_pairs_are_skipped sampleServices sampleWorld silentStore dynamicSpace 0 1 _ _
      rfl rfl (by decide) rfl rfl).2.2.2.2.1⟩

/-- C10: the sweep is a total function of the container, and it calls
`Intersection::Test` exactly once for the positions `i < j` that both hold an
object, one of them Dynamic, with, when the pair is met, a common mask bit or
a callback, and never for other positions: not for `(i, i)`, not for both
`(i, j)` and `(j, i)`, not for an entry without object. When the callbacks of
the sweep leave the properties alone, the properties at the time a pair is
met are those at the start. -/
theorem test_called_once_per_qualifying_pair {CL JG S : Type} (env : Services CL JG S)
    (w : World CL JG) (st : S) (space : List Entry) :
    (∀ i j, (GenerateContacts env w st space).calls.count (Call.Test i j) =
      if shouldTest env (stateAt env w st space i j).store space i j then 1 else 0) ∧
    (∀ s i j, shouldTest env s space i j = true ↔
      i < j ∧ ∃ o1 o2, space[i]? = some (some o1) ∧ space[j]? = some (some o2) ∧
        (o1.IsDynamic = true ∨ o2.IsDynamic = true) ∧
        ((env.Property s o1).collisionMask &&& (env.Property s o2).collisionMask ≠ 0 ∨
          (env.Property s o1).callback ≠ 0 ∨ (env.Property s o2).callback ≠ 0)) ∧
    (∀ i, (GenerateContacts env w st space).calls.count (Call.Test i i) = 0) ∧
    (∀ i j, (GenerateContacts env w st space).calls.count (Call.Test i j) +
      (GenerateContacts env w st space).calls.count (Call.Test j i) ≤ 1) ∧
    (∀ i j, space[i]? = some none ∨ space[j]? = some none →
      (GenerateContacts env w st space).calls.count (Call.Test i j) = 0) ∧
    ((∀ cl s o, env.Property (env.Finalize cl s).2 o = env.Property s o) →
      ∀ i j o, env.Property (stateAt env w st space i j).store o = env.Property st o) := by
  have hcount : ∀ i j, (GenerateContacts env w st space).calls.count (Call.Test i j) =
      if shouldTest env (stateAt env w st space i j).store space i j then 1 else 0 := by
    intro i j
    by_cases h : shouldTest env (stateAt env w st space i j).store space i j = true
    · rw [if_pos h]
      exact List.count_eq_one_of_mem (calls_nodup env w st space)
        ((test_mem_calls_iff env w st space i j).2 h)
    · rw [if_neg h]
      exact List.count_eq_zero_of_not_mem
        (fun hm => h ((test_mem_calls_iff env w st space i j).1 hm))
  refine ⟨hcount, fun s => shouldTest_iff env s space, ?_, ?_, ?_,
    fun hq i j o => store_of_quiet env w st space hq _ o⟩
  · intro i
    rw [hcount]
    simp [shouldTest]
  · intro i j
    rw [hcount, hcount]
    by_cases hij : i < j
    · have : shouldTest env (stateAt env w st space j i).store space j i = false := by
        simp [shouldTest, Nat.lt_asymm hij]
      by_cases h : shouldTest env (stateAt env w st space i j).store space i j = true <;>
        simp [this, h]
    · have : shouldTest env (stateAt env w st space i j).store space i j = false := by
        simp [shouldTest, hij]
      by_cases h : shouldTest env (stateAt env w st space j i).store space j i = true <;>
        simp [this, h]
  · intro i j h
    rw [hcount]
    rcases h with h | h <;> simp [shouldTest, h]

/-- Witness of C10 on `mixedSpace`: one test for positions `(0, 3)`, none for
the Static pair `(0, 1)`, for `(3, 0)`, or for the entry without object. -/
theorem test_called_once_per_qualifying_pair_witness :
    (GenerateContacts sampleServices sampleWorld mixedStore mixedSpace).calls.count
      (Call.Test 0 3) = 1 ∧
    (GenerateContacts sampleServices sampleWorld mixedStore mixedSpace).calls.count
      (Call.Test 0 1) = 0 ∧
    (GenerateContacts sampleServices sampleWorld mixedStore mixedSpace).calls.count
      (Call.Test 3 0) = 0 ∧
    (GenerateContacts sampleServices sampleWorld mixedStore mixedSpace).calls.count
      (Call.Test 2 3) = 0 :=
  ⟨(test_called_once_per_qualifying_pair sampleServices sampleWorld mixedStore mixedSpace).1 0 3,
    (test_called_once_per_qualifying_pair sampleServices sampleWorld mixedStore mixedSpace).1 0 1,
    (test_called_once_per_qualifying_pair sampleServices sampleWorld mixedStore mixedSpace).1 3 0,
    (test_called_once_per_qualifying_pair sampleServices sampleWorld mixedStore
      mixedSpace).2.2.2.2.1 2 3 (Or.inl rfl)⟩

/-- C9: the calls of a sweep are ordered by pair, in the lexicographic order
of `(i, j)`, and within a pair by phase, no call occurring twice, and every
pair has `i < j`; hence the `Finalize` call of a pair comes before the
`CreateJoints` call of that pair (which is never made without it) and before
the `CreateJoints` call of every later pair, and `CreateJoints` calls come in
the order of their pairs. -/
theorem callbacks_fire_before_joints {CL JG S : Type} (env : Services CL JG S)
    (w : World CL JG) (st : S) (space : List Entry) :
    (GenerateContacts env w st space).calls.Pairwise Call.before ∧
    (GenerateContacts env w st space).calls.Nodup ∧
    (∀ c ∈ (GenerateContacts env w st space).calls, c ≠ Call.JointGroupEmpty →
      c.first < c.second ∧ c.second < space.length) ∧
    (∀ i j, Call.CreateJoints i j ∈ (GenerateContacts env w st space).calls →
      [Call.Finalize i j, Call.CreateJoints i j].Sublist
        (GenerateContacts env w st space).calls ∧
      ¬ [Call.CreateJoints i j, Call.Finalize i j].Sublist
        (GenerateContacts env w st space).calls) ∧
    (∀ i j k l, lexLt (i, j) (k, l) →
      Call.Finalize i j ∈ (GenerateContacts env w st space).calls →
      Call.CreateJoints k l ∈ (GenerateContacts env w st space).calls →
      [Call.Finalize i j, Call.CreateJoints k l].Sublist
        (GenerateContacts env w st space).calls ∧
      ¬ [Call.CreateJoints k l, Call.Finalize i j].Sublist
        (GenerateContacts env w st space).calls) ∧
    (∀ i j k l, lexLt (i, j) (k, l) →
      Call.CreateJoints i j ∈ (GenerateContacts env w st space).calls →
      Call.CreateJoints k l ∈ (GenerateContacts env w st space).calls →
      [Call.CreateJoints i j, Call.CreateJoints k l].Sublist
        (GenerateContacts env w st space).calls ∧
      ¬ [Call.CreateJoints k l, Call.CreateJoints i j].Sublist
        (GenerateContacts env w st space).calls) := by
  refine ⟨calls_pairwise env w st space, calls_nodup env w st space, ?_, ?_, ?_, ?_⟩
  · intro c hc hne
    obtain ⟨h1, h2, _⟩ := mem_calls_pos env w st space c hne hc
    exact ⟨h1, h2⟩
  · intro i j h
    have hf : Call.Finalize i j ∈ (GenerateContacts env w st space).calls := by
      obtain ⟨hij, _, o1, o2, q1, q2, hp⟩ :=
        mem_calls_pos env w st space (Call.CreateJoints i j) (by simp) h
      have e1 : (Call.CreateJoints i j).first = i := rfl
      have e2 : (Call.CreateJoints i j).second = j := rfl
      simp only [e1, e2] at hij q1 q2 hp
      have hp2 := (createJoints_mem_pairCalls env i j o1 o2 _).1 hp
      exact (mem_calls_at env w st space i j o1 o2 q1 q2 (Call.Finalize i j) (by simp) rfl
        rfl).2 ⟨hij, (finalize_mem_pairCalls env i j o1 o2 _).2 ⟨hp2.1, hp2.2.1⟩⟩
    exact ordered_of_before env w st space _ _ hf h (Or.inr ⟨rfl, rfl, by simp [Call.phase]⟩)
  · intro i j k l hlt h1 h2
    exact ordered_of_before env w st space _ _ h1 h2 (Or.inl hlt)
  · intro i j k l hlt h1 h2
    exact ordered_of_before env w st space _ _ h1 h2 (Or.inl hlt)

/-- Witness of C9 on `mixedSpace`: the callbacks of pair `(0, 3)` fire before
its joints are created and before those of pair `(1, 3)`. -/
theorem callbacks_fire_before_joints_witness :
    [Call.Finalize 0 3, Call.CreateJoints 0 3].Sublist
      (GenerateContacts sampleServices sampleWorld mixedStore mixedSpace).calls ∧
    [Call.Finalize 0 3, Call.CreateJoints 1 3].Sublist
      (GenerateContacts sampleServices sampleWorld mixedStore mixedSpace).calls ∧
    [Call.CreateJoints 0 3, Call.CreateJoints 1 3].Sublist
      (GenerateContacts sampleServices sampleWorld mixedStore mixedSpace).calls :=
  ⟨((callbacks_fire_before_joints sampleServices sampleWorld mixedStore mixedSpace).2.2.2.1
      0 3 (by decide)).1,
    ((callbacks_fire_before_joints sampleServices sampleWorld mixedStore mixedSpace).2.2.2.2.1
      0 3 1 3 (Or.inl (by decide)) (by decide) (by decide)).1,
    ((callbacks_fire_before_joints sampleServices sampleWorld mixedStore mixedSpace).2.2.2.2.2
      0 3 1 3 (Or.inl (by decide)) (by decide) (by decide)).1⟩

/-- C3, as stated, fails: two Dynamic objects whose masks `1` and `2` have no
common bit when the pair is met, one with a callback, reported as overlapping;
the callbacks fired by `Finalize` give both the mask `3`, line 200 reads the
masks again, `CreateJoints` is called and the sweep ends with
`ContactCount() == 2`. -/
theorem callback_can_lift_the_mask_gate :
    dynamicSpace = [some (.Dynamic 1 8), some (.Dynamic 2 9)] ∧
    (rewritingServices.Property sensorStore (.Dynamic 1 8)).collisionMask &&&
      (rewritingServices.Property sensorStore (.Dynamic 2 9)).collisionMask = 0 ∧
    (rewritingServices.Property sensorStore (.Dynamic 2 9)).callback ≠ 0 ∧
    rewritingServices.Test sensorStore 1 2 = true ∧
    (GenerateContacts rewritingServices sampleWorld sensorStore dynamicSpace).calls.count
      (Call.CreateJoints 0 1) = 1 ∧
    (GenerateContacts rewritingServices sampleWorld sensorStore dynamicSpace).world.ContactCount
      = 2 := by
  decide

/-- C3, amended: for positions `i < j` holding objects of which one is
Dynamic, with, when the pair is met, collision masks without a common bit, a
callback on one of them and an overlap reported by `Intersection::Test`, and
with masks still without a common bit when line 200 reads them after
`Finalize`, the sweep calls `Reset`, `Find` and `Finalize` exactly once for
the pair, never calls `CreateJoints` for it and never adds a `Count()` for it
to the counter: the visit of the pair replaces the contact list and the store
by those `Reset`, `Find` and `Finalize` produce and leaves the counter and the
joint group alone; a sweep over these two objects alone ends with
`ContactCount() == 0`. -/
theorem callback_only_pair_is_notified_once {CL JG S : Type} (env : Services CL JG S)
    (w : World CL JG) (st : S) (space : List Entry) (i j : Nat) (o1 o2 : Object)
    (hij : i < j) (h1 : space[i]? = some (some o1)) (h2 : space[j]? = some (some o2))
    (hdyn : o1.IsDynamic = true ∨ o2.IsDynamic = true)
    (hmask : (env.Property (stateAt env w st space i j).store o1).collisionMask &&&
      (env.Property (stateAt env w st space i j).store o2).collisionMask = 0)
    (hcb : (env.Property (stateAt env w st space i j).store o1).callback ≠ 0 ∨
      (env.Property (stateAt env w st space i j).store o2).callback ≠ 0)
    (hov : env.Test (stateAt env w st space i j).store o1.GetGeometry o2.GetGeometry = true)
    (hafter :
      (env.Property (listAfter env (stateAt env w st space i j) o1 o2).2 o1).collisionMask &&&
        (env.Property (listAfter env (stateAt env w st space i j) o1 o2).2 o2).collisionMask
        = 0) :
    (GenerateContacts env w st space).calls.count (Call.Reset i j) = 1 ∧
    (GenerateContacts env w st space).calls.count (Call.Find i j) = 1 ∧
    (GenerateContacts env w st space).calls.count (Call.Finalize i j) = 1 ∧
    (GenerateContacts env w st space).calls.count (Call.CreateJoints i j) = 0 ∧
    (GenerateContacts env w st space).calls.count (Call.Count i j) = 0 ∧
    (∀ cl, (i, j, cl) ∉ (GenerateContacts env w st space).joints) ∧
    visitPair env i j o1 o2 (stateAt env w st space i j) =
      { world := { (stateAt env w st space i j).world with
          contactList := (listAfter env (stateAt env w st space i j) o1 o2).1 }
        store := (listAfter env (stateAt env w st space i j) o1 o2).2
        calls := (stateAt env w st space i j).calls ++
          [Call.Test i j, Call.Reset i j, Call.Find i j, Call.Finalize i j]
        joints := (stateAt env w st space i j).joints } ∧
    (space = [some o1, some o2] →
      (GenerateContacts env w st space).world.ContactCount = 0 ∧
      GenerateContacts env w st space =
        { world :=
            { contactCount := 0
              contactGroup := env.dJointGroupEmpty w.contactGroup
              contactList := (listAfter env (initial env w st) o1 o2).1 }
          store := (listAfter env (initial env w st) o1 o2).2
          calls := [Call.JointGroupEmpty, Call.Test 0 1, Call.Reset 0 1, Call.Find 0 1,
            Call.Finalize 0 1]
          joints := [] }) := by
  have ht : tested env (stateAt env w st space i j).store o1 o2 = true := by
    have hc : hasCallback env (stateAt env w st space i j).store o1 o2 = true := by
      rcases hcb with h | h <;> simp [hasCallback, h]
    rcases hdyn with h | h <;> simp [tested, h, hc]
  have hms : masksShare env (listAfter env (stateAt env w st space i j) o1 o2).2 o1 o2
      = false := by
    simp [masksShare, hafter]
  have hnd := calls_nodup env w st space
  have hcj : Call.CreateJoints i j ∉ (GenerateContacts env w st space).calls := by
    intro h
    have := ((mem_calls_at env w st space i j o1 o2 h1 h2 (Call.CreateJoints i j) (by simp)
      rfl rfl).1 h).2
    rw [createJoints_mem_pairCalls, hms] at this
    simp at this
  have hct : Call.Count i j ∉ (GenerateContacts env w st space).calls := by
    intro h
    have := ((mem_calls_at env w st space i j o1 o2 h1 h2 (Call.Count i j) (by simp)
      rfl rfl).1 h).2
    rw [count_mem_pairCalls, hms] at this
    simp at this
  have hvisit : visitPair env i j o1 o2 (stateAt env w st space i j) =
      { world := { (stateAt env w st space i j).world with
          contactList := (listAfter env (stateAt env w st space i j) o1 o2).1 }
        store := (listAfter env (stateAt env w st space i j) o1 o2).2
        calls := (stateAt env w st space i j).calls ++
          [Call.Test i j, Call.Reset i j, Call.Find i j, Call.Finalize i j]
        joints := (stateAt env w st space i j).joints } := by
    rw [visitPair_eq]
    simp [ht, hov, hms]
  refine ⟨List.count_eq_one_of_mem hnd ?_, List.count_eq_one_of_mem hnd ?_,
    List.count_eq_one_of_mem hnd ?_, List.count_eq_zero_of_not_mem hcj,
    List.count_eq_zero_of_not_mem hct, ?_, hvisit, ?_⟩
  · exact (mem_calls_at env w st space i j o1 o2 h1 h2 (Call.Reset i j) (by simp) rfl rfl).2
      ⟨hij, (reset_mem_pairCalls env i j o1 o2 _).2 ⟨ht, hov⟩⟩
  · exact (mem_calls_at env w st space i j o1 o2 h1 h2 (Call.Find i j) (by simp) rfl rfl).2
      ⟨hij, (find_mem_pairCalls env i j o1 o2 _).2 ⟨ht, hov⟩⟩
  · exact (mem_calls_at env w st space i j o1 o2 h1 h2 (Call.Finalize i j) (by simp) rfl rfl).2
      ⟨hij, (finalize_mem_pairCalls env i j o1 o2 _).2 ⟨ht, hov⟩⟩
  · intro cl hcl
    exact hct (count_mem_of_joint_mem env w st space (i, j, cl) hcl)
  · intro hsp
    subst hsp
    have hj : j < 2 := by
      have := (List.getElem?_eq_some_iff.1 h2).1
      simpa using this
    obtain rfl : j = 1 := by omega
    obtain rfl : i = 0 := by omega
    have hip : indexPairs 2 = [(0, 1)] := by decide
    have hlen : [some o1, some o2].length = 2 := rfl
    have hst : stateAt env w st [some o1, some o2] 0 1 = initial env w st := by
      unfold stateAt pairsBefore
      rw [hlen, hip]
      simp
    have hfin : GenerateContacts env w st [some o1, some o2] =
        visitPair env 0 1 o1 o2 (initial env w st) := by
      rw [GenerateContacts_eq_foldl, hlen, hip]
      simp [pairStep]
    rw [hst] at hvisit
    rw [hfin, hvisit]
    exact ⟨rfl, rfl⟩

/-- Witness of C3, amended, on two overlapping Dynamic objects with masks `1`
and `2`, the second with a callback that changes nothing. -/
theorem callback_only_pair_is_notified_once_witness :
    (GenerateContacts sampleServices sampleWorld sensorStore dynamicSpace).calls.count
      (Call.Reset 0 1) = 1 ∧
    (GenerateContacts sampleServices sampleWorld sensorStore dynamicSpace).calls.count
      (Call.Find 0 1) = 1 ∧
    (GenerateContacts sampleServices sampleWorld sensorStore dynamicSpace).calls.count
      (Call.Finalize 0 1) = 1 ∧
    (GenerateContacts sampleServices sampleWorld sensorStore dynamicSpace).calls.count
      (Call.CreateJoints 0 1) = 0 ∧
    (GenerateContacts sampleServices sampleWorld sensorStore dynamicSpace).world.ContactCount
      = 0 :=
  ⟨(callback_only_pair_is_notified_once sampleServices sampleWorld sensorStore dynamicSpace
      0 1 _ _ (by decide) rfl rfl (Or.inl rfl) (by decide) (Or.inr (by decide)) rfl
      (by decide)).1,
    (callback_only_pair_is_notified_once sampleServices sampleWorld sensorStore dynamicSpace
      0 1 _ _ (by decide) rfl rfl (Or.inl rfl) (by decide) (Or.inr (by decide)) rfl
      (by decide)).2.1,
    (callback_only_pair_is_notified_once sampleServices sampleWorld sensorStore dynamicSpace
      0 1 _ _ (by decide) rfl rfl (Or.inl rfl) (by decide) (Or.inr (by decide)) rfl
      (by decide)).2.2.1,
    (callback_only_pair_is_notified_once sampleServices sampleWorld sensorStore dynamicSpace
      0 1 _ _ (by decide) rfl rfl (Or.inl rfl) (by decide) (Or.inr (by decide)) rfl
      (by decide)).2.2.2.1,
    ((callback_only_pair_is_notified_once sampleServices sampleWorld sensorStore dynamicSpace
      0 1 _ _ (by decide) rfl rfl (Or.inl rfl) (by decide) (Or.inr (by decide)) rfl
      (by decide)).2.2.2.2.2.2.2 rfl).1⟩

/-- C4, as stated, fails twice. In the sweep over two Dynamic objects of masks
`1` and `2`, one with a callback, no pair of the container has masks with a
common bit, so the sum the claim describes is empty; the callbacks give both
objects the mask `3` before line 200 reads the masks, and the counter ends at
`2`. In the sweep over `8193` Dynamic objects of which every two overlap with
`64` contacts, the claim lists `33558528` pairs whose `Count()` is `64`, and
`ContactCount()`, an `int`, is not `64 * 33558528`. -/
theorem counter_is_not_the_claimed_sum :
    (((indexPairs dynamicSpace.length).filter fun p =>
        counted rewritingServices sensorStore dynamicSpace p.1 p.2) = [] ∧
      (GenerateContacts rewritingServices sampleWorld sensorStore
        dynamicSpace).world.ContactCount = 2) ∧
    (((indexPairs (crowdSpace 8193).length).filter fun p =>
        counted crowdServices plainStore (crowdSpace 8193) p.1 p.2).length = 33558528 ∧
      (∀ s o1 o2, crowdServices.Count (listAfter crowdServices s o1 o2).1 = 64) ∧
      (GenerateContacts crowdServices sampleWorld plainStore
        (crowdSpace 8193)).world.ContactCount ≠ 64 * 33558528) := by
  refine ⟨by decide, ?_, fun _ _ _ => rfl, ?_⟩
  · have hlen : (crowdSpace 8193).length = 8193 := by simp [crowdSpace]
    rw [hlen, List.filter_eq_self.2 (fun p hp => crowd_all_counted 8193 p hp)]
    have := indexPairs_length 8193
    omega
  · have h1 := ContactCount_le_max crowdServices sampleWorld plainStore (crowdSpace 8193)
    omega

/-- C4, amended: after a sweep, whatever the counter held before,
`ContactCount()` is the sum, in `int` arithmetic, of the values `Count()`
returned for the counted contact lists, and is that sum itself when it fits an
`int`; the joint group is the group `dJointGroupEmpty` left, with
`CreateJoints` applied for the counted contact lists in order; one contact
list is counted for each pair of positions `i < j` that hold objects of which
one is Dynamic, which pass, when the pair is met, the gate of masks and
callbacks, which `Test` then reports as overlapping, and whose masks share a
bit when line 200 reads them after `Finalize`, in iteration order and for no
other pair; the counted list is the contact list after `Reset`, `Find` and
`Finalize` for that pair; the counter of an earlier sweep does not enter, and
the joint group is emptied before any pair is examined. When `Finalize`
leaves the store alone, the counted pairs are those whose masks share a bit
and which overlap at the start of the sweep. -/
theorem contactCount_is_sum_of_counts {CL JG S : Type} (env : Services CL JG S)
    (w : World CL JG) (st : S) (space : List Entry) :
    (GenerateContacts env w st space).world.ContactCount =
      wrapInt32 (countSum env (GenerateContacts env w st space).joints) ∧
    ((-2147483648 ≤ countSum env (GenerateContacts env w st space).joints ∧
        countSum env (GenerateContacts env w st space).joints ≤ 2147483647) →
      (GenerateContacts env w st space).world.ContactCount =
        countSum env (GenerateContacts env w st space).joints) ∧
    (GenerateContacts env w st space).world.contactGroup =
      groupAfter env (env.dJointGroupEmpty w.contactGroup)
        (GenerateContacts env w st space).joints ∧
    ((GenerateContacts env w st space).joints.map jointPair).Pairwise lexLt ∧
    (∀ i j cl, (i, j, cl) ∈ (GenerateContacts env w st space).joints ↔
      i < j ∧ ∃ o1 o2, space[i]? = some (some o1) ∧ space[j]? = some (some o2) ∧
        (o1.IsDynamic = true ∨ o2.IsDynamic = true) ∧
        ((env.Property (stateAt env w st space i j).store o1).collisionMask &&&
            (env.Property (stateAt env w st space i j).store o2).collisionMask ≠ 0 ∨
          (env.Property (stateAt env w st space i j).store o1).callback ≠ 0 ∨
          (env.Property (stateAt env w st space i j).store o2).callback ≠ 0) ∧
        env.Test (stateAt env w st space i j).store o1.GetGeometry o2.GetGeometry = true ∧
        (env.Property (listAfter env (stateAt env w st space i j) o1 o2).2 o1).collisionMask &&&
          (env.Property (listAfter env (stateAt env w st space i j) o1 o2).2 o2).collisionMask
          ≠ 0 ∧
        cl = (env.Finalize
          (env.Find (stateAt env w st space i j).store o1.GetGeometry o2.GetGeometry
            (env.Reset (stateAt env w st space i j).world.contactList o1 o2))
          (stateAt env w st space i j).store).1) ∧
    (∀ n, GenerateContacts env { w with contactCount := n } st space =
      GenerateContacts env w st space) ∧
    (∃ rest, (GenerateContacts env w st space).calls = Call.JointGroupEmpty :: rest) ∧
    ((∀ cl s, (env.Finalize cl s).2 = s) →
      (GenerateContacts env w st space).joints.map jointPair =
        (indexPairs space.length).filter fun p => counted env st space p.1 p.2) := by
  refine ⟨contactCount_eq_wrap_sum env w st space, ?_,
    contactGroup_eq_groupAfter env w st space, joints_pairwise env w st space, ?_,
    fun _ => rfl, ?_, joints_pairs_of_silent env w st space⟩
  · rintro ⟨h1, h2⟩
    show (GenerateContacts env w st space).world.contactCount = _
    rw [contactCount_eq_wrap_sum]
    exact wrapInt32_of_range _ h1 h2
  · intro i j cl
    rw [mem_joints_iff]
    constructor
    · rintro ⟨hij, o1, o2, q1, q2, t1, t2, t3, hcl⟩
      simp only [tested, masksShare, hasCallback, Bool.and_eq_true, Bool.or_eq_true,
        bne_iff_ne, ne_eq] at t1 t3
      exact ⟨hij, o1, o2, q1, q2, t1.1, by tauto, t2, t3, hcl⟩
    · rintro ⟨hij, o1, o2, q1, q2, hd, hg, t2, t3, hcl⟩
      refine ⟨hij, o1, o2, q1, q2, ?_, t2, ?_, hcl⟩
      · simp only [tested, masksShare, hasCallback, Bool.and_eq_true, Bool.or_eq_true,
          bne_iff_ne, ne_eq]
        exact ⟨hd, by tauto⟩
      · simp only [masksShare, bne_iff_ne, ne_eq]
        exact t3
  · have h := calls_pairwise env w st space
    rw [GenerateContacts_eq_foldl] at *
    obtain ⟨rest, hrest⟩ : ∃ rest, ((indexPairs space.length).foldl (pairStep env space)
        (initial env w st)).calls = (initial env w st).calls ++ rest := by
      refine foldl_preserves env space
        (fun s => ∃ rest, s.calls = (initial env w st).calls ++ rest) ?_ _ _ ⟨[], by simp⟩
      rintro s p ⟨rest, hs⟩
      exact ⟨rest ++ stepCalls env space s p, by rw [pairStep_calls, hs, List.append_assoc]⟩
    exact ⟨rest, hrest⟩

/-- Witness of C4, amended: the sweep over `mixedSpace`, whose callbacks change
nothing, counts two lists of two contacts, the sum fits an `int`, the counter
is `4` at the end, the joint group of five joints is emptied and then holds
four, and the counted pairs are those the claim lists. -/
theorem contactCount_is_sum_of_counts_witness :
    (-2147483648 ≤ countSum sampleServices
        (GenerateContacts sampleServices sampleWorld mixedStore mixedSpace).joints ∧
      countSum sampleServices
        (GenerateContacts sampleServices sampleWorld mixedStore mixedSpace).joints ≤
        2147483647) ∧
    (GenerateContacts sampleServices sampleWorld mixedStore mixedSpace).world.ContactCount =
      countSum sampleServices
        (GenerateContacts sampleServices sampleWorld mixedStore mixedSpace).joints ∧
    countSum sampleServices
      (GenerateContacts sampleServices sampleWorld mixedStore mixedSpace).joints = 4 ∧
    (GenerateContacts sampleServices sampleWorld mixedStore mixedSpace).world.contactGroup = 4 ∧
    (GenerateContacts sampleServices sampleWorld mixedStore mixedSpace).joints.map jointPair =
      (indexPairs mixedSpace.length).filter fun p =>
        counted sampleServices mixedStore mixedSpace p.1 p.2 :=
  ⟨by decide,
    (contactCount_is_sum_of_counts sampleServices sampleWorld mixedStore mixedSpace).2.1
      (by decide),
    by decide,
    (contactCount_is_sum_of_counts sampleServices sampleWorld mixedStore
      mixedSpace).2.2.1.trans (by decide),
    (contactCount_is_sum_of_counts sampleServices sampleWorld mixedStore
      mixedSpace).2.2.2.2.2.2.2 (fun _ _ => rfl)⟩

/-! ## Claims about World::IsCorrupt -/

theorem velocityFlagged_two (eng : Engine) (test : dReal → Bool) (body : Body) :
    velocityFlagged eng test 2 body =
      ((test (eng.dBodyGetLinearVel body 0) || test (eng.dBodyGetAngularVel body 0)) ||
        (test (eng.dBodyGetLinearVel body 1) || test (eng.dBodyGetAngularVel body 1))) := by
  simp [velocityFlagged, List.range_succ]

theorem IsCorruptFrom_iff (eng : Engine) :
    ∀ (space : List Entry) (queried : List Body),
      (IsCorruptFrom eng space queried).1 = true ↔
        ∃ e ∈ space, corruptEntry eng eng.is_nan 2 e = true := by
  intro space
  induction space with
  | nil => intro queried; simp [IsCorruptFrom]
  | cons e rest ih =>
      intro queried
      cases e with
      | none => simp [IsCorruptFrom, ih, corruptEntry]
      | some o =>
          cases o with
          | Static g => simp [IsCorruptFrom, ih, corruptEntry, Object.GetBody, Object.IsDynamic]
          | Dynamic g b =>
              have hce : corruptEntry eng eng.is_nan 2 (some (.Dynamic g b)) =
                  (b != 0 &&
                    ((eng.is_nan (eng.dBodyGetLinearVel b 0) ||
                        eng.is_nan (eng.dBodyGetAngularVel b 0)) ||
                      (eng.is_nan (eng.dBodyGetLinearVel b 1) ||
                        eng.is_nan (eng.dBodyGetAngularVel b 1)))) := by
                simp [corruptEntry, Object.IsDynamic, Object.GetBody, velocityFlagged_two]
              rw [List.exists_mem_cons_iff, hce]
              simp only [IsCorruptFrom, Object.GetBody]
              by_cases hb : b = 0
              · simp [hb, ih]
              · cases h1 : eng.is_nan (eng.dBodyGetLinearVel b 0) <;>
                  cases h2 : eng.is_nan (eng.dBodyGetLinearVel b 1) <;>
                  cases h3 : eng.is_nan (eng.dBodyGetAngularVel b 0) <;>
                  cases h4 : eng.is_nan (eng.dBodyGetAngularVel b 1) <;>
                  simp [hb, ih]

theorem IsCorruptFrom_noBody (eng : Engine) :
    ∀ (space : List Entry) (queried : List Body), (∀ e ∈ space, Entry.noBody e = true) →
      IsCorruptFrom eng space queried = (false, queried) := by
  intro space
  induction space with
  | nil => intro queried _; rfl
  | cons e rest ih =>
      intro queried h
      have hrest := ih queried (fun x hx => h x (List.mem_cons_of_mem e hx))
      have he := h e (List.mem_cons_self e rest)
      cases e with
      | none => simpa [IsCorruptFrom] using hrest
      | some o =>
          cases o with
          | Static g => simpa [IsCorruptFrom, Object.GetBody] using hrest
          | Dynamic g b => simp [Entry.noBody, Object.IsDynamic] at he

/-- C5, as stated, fails: a Dynamic object whose angular velocity is
`(0, 0, NaN)` has a component that is not finite, and `IsCorrupt` returns
`false`. -/
theorem IsCorrupt_misses_third_component :
    ¬ (IsCorrupt spinEngine spinSpace = true ↔
      ∃ e ∈ spinSpace, corruptEntry spinEngine dReal.nonFinite velocityComponents e = true) := by
  decide

/-- C5, amended: `IsCorrupt` returns `true` if and only if some entry resolves
to a Dynamic object with a non-null body for which `is_nan` holds of
component `0` or `1` of the linear velocity or of component `0` or `1` of the
angular velocity. -/
theorem IsCorrupt_iff_first_two_components (eng : Engine) (space : List Entry) :
    IsCorrupt eng space = true ↔
      ∃ o, some o ∈ space ∧ o.IsDynamic = true ∧ o.GetBody ≠ 0 ∧
        (eng.is_nan (eng.dBodyGetLinearVel o.GetBody 0) = true ∨
          eng.is_nan (eng.dBodyGetLinearVel o.GetBody 1) = true ∨
          eng.is_nan (eng.dBodyGetAngularVel o.GetBody 0) = true ∨
          eng.is_nan (eng.dBodyGetAngularVel o.GetBody 1) = true) := by
  unfold IsCorrupt
  rw [IsCorruptFrom_iff]
  constructor
  · rintro ⟨e, he, hc⟩
    cases e with
    | none => simp [corruptEntry] at hc
    | some o =>
        refine ⟨o, he, ?_⟩
        simp only [corruptEntry, velocityFlagged_two, Bool.and_eq_true, Bool.or_eq_true,
          bne_iff_ne] at hc
        obtain ⟨⟨hd, hb⟩, hv⟩ := hc
        refine ⟨hd, hb, ?_⟩
        tauto
  · rintro ⟨o, ho, hd, hb, hv⟩
    refine ⟨some o, ho, ?_⟩
    simp only [corruptEntry, velocityFlagged_two, Bool.and_eq_true, Bool.or_eq_true,
      bne_iff_ne]
    refine ⟨⟨hd, hb⟩, ?_⟩
    tauto

/-- C6: over a container whose entries resolve to no object or to a Static
object, `IsCorrupt` returns `false` and asks the engine for no velocity,
whatever the engine holds. -/
theorem IsCorrupt_false_without_bodies (eng : Engine) (space : List Entry)
    (h : ∀ e ∈ space, Entry.noBody e = true) :
    IsCorrupt eng space = false ∧ IsCorruptQueries eng space = [] := by
  unfold IsCorrupt IsCorruptQueries
  rw [IsCorruptFrom_noBody eng space [] h]
  exact ⟨rfl, rfl⟩

/-- Witness of C6: Static objects only, in an engine where every velocity
component is NaN. -/
theorem IsCorrupt_false_without_bodies_witness :
    (∀ e ∈ staticSpace, Entry.noBody e = true) ∧
      IsCorrupt nanEngine staticSpace = false ∧ IsCorruptQueries nanEngine staticSpace = [] :=
  ⟨by decide, IsCorrupt_false_without_bodies nanEngine staticSpace (by decide)⟩

/-! ## Claims about the stack of default properties -/

theorem runOps_wellScoped :
    ∀ (ops : List DefaultsOp) (depth : Nat) (s : Defaults) (saved base : List ObjectProperties),
      wellScoped depth ops = true → s.defaultStack = saved ++ base → saved.length = depth →
        runOps ops s = .ok { defaults := bottomOf s.defaults saved, defaultStack := base } := by
  intro ops
  induction ops with
  | nil =>
      intro depth s saved base h hs hl
      simp only [wellScoped, beq_iff_eq] at h
      subst h
      have : saved = [] := List.length_eq_zero.1 hl
      subst this
      cases s
      simp only [List.nil_append] at hs
      simp [runOps, bottomOf, hs]
  | cons op rest ih =>
      intro depth s saved base h hs hl
      cases op with
      | Push =>
          simp only [wellScoped] at h
          have := ih (depth + 1) (PushProperties s) (s.defaults :: saved) base h
            (by simp [PushProperties, hs]) (by simp [hl])
          simpa [runOps, DefaultsOp.exec, PushProperties, bottomOf] using this
      | Pop =>
          simp only [wellScoped, Bool.and_eq_true, bne_iff_ne] at h
          cases saved with
          | nil => exact absurd hl.symm h.1
          | cons top saved1 =>
              have := ih (depth - 1) { defaults := top, defaultStack := saved1 ++ base } saved1
                base h.2 rfl (by simp at hl; omega)
              simpa [runOps, DefaultsOp.exec, PopProperties, hs, bottomOf] using this
      | Mutate f =>
          simp only [wellScoped, Bool.and_eq_true, bne_iff_ne] at h
          cases saved with
          | nil => exact absurd hl.symm h.1
          | cons top saved1 =>
              have := ih depth { s with defaults := f s.defaults } (top :: saved1) base h.2
                hs hl
              simpa [runOps, DefaultsOp.exec, bottomOf] using this

/-- C7, as stated, fails: in the balanced sequence push, pop, write, push, pop
the write is made while no push is open, and the defaults keep it. -/
theorem balanced_sequence_may_change_defaults :
    balanced 0 leakyOps = true ∧ runOps leakyOps sampleDefaults ≠ .ok sampleDefaults := by
  refine ⟨rfl, ?_⟩
  intro h
  have h2 : runOps leakyOps sampleDefaults =
      .ok { defaults := setDensity 2 sampleDefaults.defaults, defaultStack := [] } := rfl
  rw [h2] at h
  exact absurd (congrArg (fun d => d.defaults.density) (Except.ok.inj h)) (by decide)

/-- C7, amended: a well nested sequence of pushes and pops, with writes to
`Default()` made only while a push of the sequence is open, runs without
fault and leaves the defaults, every field, and the stack as they were. -/
theorem scoped_sequence_restores_defaults (ops : List DefaultsOp) (s : Defaults)
    (h : wellScoped 0 ops = true) : runOps ops s = .ok s := by
  have := runOps_wellScoped ops 0 s [] s.defaultStack h rfl rfl
  simpa [bottomOf] using this

/-- Witness of C7, amended, on two nested scopes with three writes. -/
theorem scoped_sequence_restores_defaults_witness :
    wellScoped 0 nestedOps = true ∧ runOps nestedOps sampleDefaults = .ok sampleDefaults :=
  ⟨rfl, scoped_sequence_restores_defaults nestedOps sampleDefaults rfl⟩

end HenocUniverse
